import Mathlib

/-!
# kafka-http-api: the request pipeline

A shallow embedding of `handlers.go` and `kafka-http-api.go`: partition
selection (`getPartition`, `getPartitionByKey`), the send handler, the router
closure of `Server.Run`, and the connection counters (`newConnTrack`,
`closeConnTrack`).

Conventions.
* Go strings are Lean strings; their bytes are the UTF-8 encoding (`bytesOf`).
* `int64` values are `Int`, `uint64` values are `Nat`; conversions and atomic
  additions wrap explicitly (`uint64`, `wrapInt64`).
* A Go call ends in a value, an `error`, or a runtime panic (`Outcome`).
* Library calls are modelled by their documented behaviour: `crypto/sha1`
  (`sha1Sum`), `encoding/binary` (`binaryReadUint64LE`), `math/rand`
  (`Int63n`), `encoding/json` (`jsonUnmarshalMap`), `regexp`
  (`Pattern.FindStringSubmatch`), `net/url` (`Values`), `net/http`
  (`redirectBehavior`, `muxHandler`).
-/


namespace KafkaHttpApi

/-! ## Values and outcomes -/

/-- Errors built by the partition selector (`fmt.Errorf` calls in `handlers.go`)
and by `binary.Read`. -/
inductive GoError where
  /-- The error `fmt.Errorf("unsupported type of component: " + k)`. -/
  | unsupportedTypeOfComponent (k : String)
  /-- The error `fmt.Errorf("can't find key components")`. -/
  | cantFindKeyComponents
  /-- The error `fmt.Errorf("Unsupported type of balance")`. -/
  | unsupportedTypeOfBalance
  /-- The error of `binary.Read` on a reader shorter than eight bytes. -/
  | unexpectedEOF
deriving DecidableEq, Repr

/-- Result of a Go call: a value, a returned `error`, or a runtime panic. -/
inductive Outcome (α : Type) where
  | ok (a : α)
  | error (e : GoError)
  | panic
deriving DecidableEq, Repr

/-- A decoded JSON value, as `encoding/json` stores it in an `interface{}`:
`nil`, `bool`, `float64` (kept as its literal), `string`, `[]interface{}`,
`map[string]interface{}`. -/
inductive JValue where
  | null
  | bool (b : Bool)
  | number (literal : String)
  | string (s : String)
  | array (xs : List JValue)
  | object (kvs : List (String × JValue))

/-- A Go `map[string]interface{}`: an association list read through `List.lookup`.
The nil map and the empty map read alike and are both `[]`. -/
abbrev GoMap := List (String × JValue)

/-- Map assignment `m[k] = v`. -/
def GoMap.set (m : GoMap) (k : String) (v : JValue) : GoMap :=
  if m.any (fun e => e.1 == k) then m.map (fun e => if e.1 == k then (k, v) else e)
  else m ++ [(k, v)]

/-! ## crypto/sha1 and encoding/binary -/

/-- Conversion `uint64(x)` of an `int64`. -/
def uint64 (x : Int) : Nat := (x % 2 ^ 64).toNat

/-- Reduction of an integer into the `int64` range (two's complement wrap). -/
def wrapInt64 (x : Int) : Int := (x + 2 ^ 63) % 2 ^ 64 - 2 ^ 63

/-- UTF-8 encoding of one code point. -/
def utf8EncodeChar (c : Nat) : List Nat :=
  if c < 0x80 then [c]
  else if c < 0x800 then [0xC0 + c / 64, 0x80 + c % 64]
  else if c < 0x10000 then [0xE0 + c / 4096, 0x80 + c / 64 % 64, 0x80 + c % 64]
  else [0xF0 + c / 262144, 0x80 + c / 4096 % 64, 0x80 + c / 64 % 64, 0x80 + c % 64]

/-- The conversion `[]byte(s)`. -/
def bytesOf (s : String) : List Nat := s.toList.flatMap fun c => utf8EncodeChar c.toNat

/-- Rotate a 32-bit word left. -/
def rotl32 (x n : Nat) : Nat := ((x <<< n) ||| (x >>> (32 - n))) % 2 ^ 32

/-- Big-endian value of a byte list. -/
def be32 (bs : List Nat) : Nat := bs.foldl (fun acc b => acc * 256 + b) 0

/-- The four big-endian bytes of a 32-bit word. -/
def be32bytes (w : Nat) : List Nat :=
  [w / 2 ^ 24 % 256, w / 2 ^ 16 % 256, w / 2 ^ 8 % 256, w % 256]

/-- The eight big-endian bytes of a 64-bit word. -/
def be64bytes (w : Nat) : List Nat :=
  be32bytes (w / 2 ^ 32 % 2 ^ 32) ++ be32bytes (w % 2 ^ 32)

/-- SHA-1 padding: a one bit, zeros up to 56 mod 64, the bit length. -/
def sha1Pad (msg : List Nat) : List Nat :=
  msg ++ [0x80] ++ List.replicate ((119 - msg.length % 64) % 64) 0
    ++ be64bytes (msg.length * 8 % 2 ^ 64)

/-- The first `n` 64-byte blocks of a byte list. -/
def chunks64 : Nat → List Nat → List (List Nat)
  | 0, _ => []
  | n + 1, bs => bs.take 64 :: chunks64 n (bs.drop 64)

/-- The first `n` big-endian 32-bit words of a byte list. -/
def words16 : Nat → List Nat → List Nat
  | 0, _ => []
  | n + 1, bs => be32 (bs.take 4) :: words16 n (bs.drop 4)

/-- Message schedule: extend the word list by `n` words. -/
def schedule : Nat → List Nat → List Nat
  | 0, w => w
  | n + 1, w =>
    let i := w.length
    schedule n (w ++ [rotl32 (w.getD (i - 3) 0 ^^^ w.getD (i - 8) 0
      ^^^ w.getD (i - 14) 0 ^^^ w.getD (i - 16) 0) 1])

/-- The five chaining words of SHA-1. -/
structure Digest where
  h0 : Nat
  h1 : Nat
  h2 : Nat
  h3 : Nat
  h4 : Nat
deriving DecidableEq, Repr

/-- Initial chaining value. -/
def sha1Init : Digest := ⟨0x67452301, 0xEFCDAB89, 0x98BADCFE, 0x10325476, 0xC3D2E1F0⟩

/-- One of the eighty rounds. -/
def sha1Round (i : Nat) (w : Nat) (d : Digest) : Digest :=
  let b := d.h1
  let c := d.h2
  let e := d.h3
  let fk : Nat × Nat :=
    if i < 20 then ((b &&& c) ||| ((b ^^^ (2 ^ 32 - 1)) &&& e), 0x5A827999)
    else if i < 40 then (b ^^^ c ^^^ e, 0x6ED9EBA1)
    else if i < 60 then ((b &&& c) ||| (b &&& e) ||| (c &&& e), 0x8F1BBCDC)
    else (b ^^^ c ^^^ e, 0xCA62C1D6)
  ⟨(rotl32 d.h0 5 + fk.1 + d.h4 + fk.2 + w) % 2 ^ 32, d.h0, rotl32 d.h1 30, d.h2, d.h3⟩

/-- The rounds over a schedule, numbered from `i`. -/
def sha1Rounds : Nat → List Nat → Digest → Digest
  | _, [], d => d
  | i, w :: ws, d => sha1Rounds (i + 1) ws (sha1Round i w d)

/-- Compression of one block. -/
def sha1Block (d : Digest) (block : List Nat) : Digest :=
  let r := sha1Rounds 0 (schedule 64 (words16 16 block)) d
  ⟨(d.h0 + r.h0) % 2 ^ 32, (d.h1 + r.h1) % 2 ^ 32, (d.h2 + r.h2) % 2 ^ 32,
   (d.h3 + r.h3) % 2 ^ 32, (d.h4 + r.h4) % 2 ^ 32⟩

/-- The function `sha1.Sum`: the 20-byte SHA-1 digest (FIPS 180-4). -/
def sha1Sum (msg : List Nat) : List Nat :=
  let p := sha1Pad msg
  let d := (chunks64 (p.length / 64) p).foldl sha1Block sha1Init
  be32bytes d.h0 ++ be32bytes d.h1 ++ be32bytes d.h2 ++ be32bytes d.h3 ++ be32bytes d.h4

/-- Little-endian value of a byte list. -/
def le64 (bs : List Nat) : Nat := bs.foldr (fun b acc => b + 256 * acc) 0

/-- The call `binary.Read(bytes.NewReader(b), binary.LittleEndian, &num)` for a
`uint64`: the first eight bytes, little-endian; an error on a shorter input. -/
def binaryReadUint64LE (b : List Nat) : Outcome Nat :=
  if b.length < 8 then .error .unexpectedEOF else .ok (le64 (b.take 8))

/-- The call `rand.Int63n(n)`: panics for `n <= 0`, otherwise a value of
`[0, n)`; `rnd` is the number the random source draws. -/
def Int63n (rnd : Nat) (n : Int) : Outcome Int :=
  if n ≤ 0 then .panic else .ok ((rnd : Int) % n)

/-! ## Partition selection (`handlers.go`) -/

/-- The `range components` loop of `getPartitionByKey`, `keyArr` being the values
appended so far. -/
def getPartitionByKey.loop (message : GoMap) : List String → List String → Outcome (List String)
  | [], keyArr => .ok keyArr
  | k :: rest, keyArr =>
    match message.lookup k with
    | some (.string value) => getPartitionByKey.loop message rest (keyArr ++ [value])
    | some _ => .error (.unsupportedTypeOfComponent k)
    | none => .error .cantFindKeyComponents

/-- The function `getPartitionByKey`. -/
def getPartitionByKey (components : List String) (message : GoMap) : Outcome Nat :=
  match getPartitionByKey.loop message components [] with
  | .ok keyArr =>
    let checksum := sha1Sum (bytesOf (String.intercalate "/" keyArr))
    match binaryReadUint64LE checksum with
    | .ok num => .ok num
    | .error e => .error e
    | .panic => .panic
  | .error e => .error e
  | .panic => .panic

/-- The function `getPartition`; `rnd` is the draw of the random source. The
remainder by a zero divisor is a runtime panic. -/
def getPartition (rnd : Nat) (balance : String) (maxPartitions : Int)
    (components : List String) (message : GoMap) : Outcome Nat :=
  if balance = "key" then
    match getPartitionByKey components message with
    | .ok partition_ =>
      if uint64 maxPartitions = 0 then .panic else .ok (partition_ % uint64 maxPartitions)
    | .error e => .error e
    | .panic => .panic
  else if balance = "random" then
    match Int63n rnd maxPartitions with
    | .ok v => .ok (uint64 v)
    | .error e => .error e
    | .panic => .panic
  else .error .unsupportedTypeOfBalance

/-- Spec side of key selection: the first eight bytes of the SHA-1 of the
values joined with a slash, read little-endian, modulo the partition count. -/
def specKeyPartition (values : List String) (n : Nat) : Nat :=
  le64 ((sha1Sum (bytesOf (String.intercalate "/" values))).take 8) % n

/-! ## Configuration (`config.go`) and server state -/

/-- The part of `ConfigGlobal` the request pipeline reads. -/
structure ConfigGlobal where
  MaxConns : Int

/-- The struct `ConfigKafka`. -/
structure ConfigKafka where
  API : String

/-- The struct `ConfigQueue`: one topic policy. -/
structure ConfigQueue where
  Partitions : Int
  Balance : String
  Key : List String

/-- The struct `Config`; `Queue` is the topic map, read through `List.lookup`. -/
structure Config where
  Global : ConfigGlobal
  Kafka : ConfigKafka
  Queue : List (String × ConfigQueue)

/-- The struct `ConnTrack`. -/
structure ConnTrack where
  ConnID : Int
  Conns : Int
deriving DecidableEq, Repr

/-- The struct `Server`: the two counters and the configuration. -/
structure Server where
  lastConnID : Int
  connsCount : Int
  Cfg : Config

/-- The call `atomic.AddInt64(&x, d)`: the new value, wrapped to `int64`. -/
def atomicAddInt64 (x d : Int) : Int := wrapInt64 (x + d)

/-- The method `newConnTrack`: both counters are incremented, the new values are
returned in the `ConnTrack`. -/
def newConnTrack (s : Server) : ConnTrack × Server :=
  let id := atomicAddInt64 s.lastConnID 1
  let conns := atomicAddInt64 s.connsCount 1
  ({ ConnID := id, Conns := conns }, { s with lastConnID := id, connsCount := conns })

/-- The method `closeConnTrack`. -/
def closeConnTrack (s : Server) (_cl : ConnTrack) : Server :=
  { s with connsCount := atomicAddInt64 s.connsCount (-1) }

/-! ## Requests and responses -/

/-- The type `url.Values`, read through `List.lookup`. -/
abbrev Values := List (String × List String)

/-- The method `Values.Get`: the first value of the key, or the empty string. -/
def Values.Get (v : Values) (key : String) : String :=
  match v.lookup key with
  | some (x :: _) => x
  | _ => ""

/-- The method `Values.Set`: the key now holds exactly `[value]`. -/
def Values.Set (v : Values) (key value : String) : Values :=
  (key, [value]) :: v.filter (fun e => e.1 != key)

/-- What the bytes of a request body are to `encoding/json`: text it rejects
(a syntax error, a number out of range), or a JSON value. -/
inductive BodyContent where
  | invalid
  | json (v : JValue)

/-- The call `json.Unmarshal(msg, &m)` for `m` a nil `map[string]interface{}`:
an object fills the map (a repeated key keeps its last value), the JSON value
`null` is accepted and leaves the map nil, every other value and every invalid
text is an error. -/
def jsonUnmarshalMap : BodyContent → Option GoMap
  | .invalid => none
  | .json (.object kvs) => some (kvs.foldl (fun m e => GoMap.set m e.1 e.2) [])
  | .json .null => some []
  | .json _ => none

/-- An incoming request as the handlers read it. `Body` is the result of
`ioutil.ReadAll(r.Body)`, `Query` of `req.URL.Query()`, `RemoteHost` the host
returned by `net.SplitHostPort(r.RemoteAddr)`; the error cases carry the text
of the error. -/
structure Request where
  Method : String
  Path : String
  Query : Values
  Body : Except String BodyContent
  RemoteHost : Except String String

/-- The message of an error response, `fmt.Sprintf(format, args...)`. -/
inductive ErrText where
  /-- A format without verbs: the text itself. -/
  | text (s : String)
  /-- The format `"Unable to read body: %s"` applied to the read error. -/
  | unableToReadBody (e : String)
  /-- The format `"%v"` applied to a selector error. -/
  | ofError (e : GoError)
  /-- The format `"Unable to get client IP address: %v"` applied to the error. -/
  | unableToGetClientIP (e : String)
deriving DecidableEq, Repr

/-- The struct `JSONErrorData`. -/
structure JSONErrorData where
  Code : Nat
  Message : ErrText
deriving DecidableEq, Repr

/-- The `Data` field of a `JSONResponse` as the handlers fill it. -/
inductive JSONData where
  | str (s : String)
  | err (d : JSONErrorData)
deriving DecidableEq, Repr

/-- The struct `JSONResponse`. -/
structure JSONResponse where
  Status : String
  Data : JSONData
deriving DecidableEq, Repr

/-- What is written as a response body. -/
inductive RespBody where
  /-- Only `WriteHeader`: no body. -/
  | empty
  /-- The page of `rootHandler`. -/
  | html
  /-- The JSON encoding of an envelope. -/
  | json (v : JSONResponse)
deriving DecidableEq, Repr

/-- One response written to the caller: the status of `WriteHeader`, the
`Content-Type` header set by the handler, the body. -/
structure Response where
  Status : Nat
  ContentType : Option String
  Body : RespBody
deriving DecidableEq, Repr

/-- The method `writeResponse`: the envelope as JSON with the given status.
(`json.Marshal` does not fail on a `JSONResponse` built by these handlers.) -/
def writeResponse (status : Nat) (v : JSONResponse) : Response :=
  { Status := status, ContentType := some "application/json", Body := .json v }

/-- The method `successResponse`. -/
def successResponse (m : String) : Response :=
  writeResponse 200 { Status := "success", Data := .str m }

/-- The method `errorResponse`. -/
def errorResponse (status : Nat) (msg : ErrText) : Response :=
  writeResponse status { Status := "error", Data := .err { Code := status, Message := msg } }

/-- The struct `kafkaSender`. -/
structure kafkaSender where
  Project : String
  Cluster : String
  IP : String

/-- The struct `kafkaMessage`, the envelope sent to the backend. -/
structure kafkaMessage where
  ID : String
  Accepted : Int
  Sender : kafkaSender
  Data : GoMap

/-- One HTTP request sent to the backend. -/
inductive Post where
  /-- The request of `client.Post(url, contentType, body)`. -/
  | post (url contentType : String) (body : kafkaMessage)
  /-- A request the client issues by itself while following a redirect: its
  method, its target, and whether the envelope is sent again as its body. -/
  | follow (method url : String) (withBody : Bool)

/-- The target of a request. -/
def Post.url : Post → String
  | .post url _ _ => url
  | .follow _ url _ => url

/-- The method of a request. -/
def Post.method : Post → String
  | .post _ _ _ => "POST"
  | .follow method _ _ => method

/-- Outcome of one HTTP exchange with the backend: a transport failure, or a
response with its status and, when it carries one, the target of its
`Location` header. -/
inductive Attempt where
  | transportError
  | completed (status : Nat) (location : Option String)
deriving DecidableEq, Repr

/-- What `http.Client` does with a response when `CheckRedirect` is nil, as the
client of `sendHandler` is built: a 301, 302 or 303 with a `Location` is
followed by a GET without body, a 307 or 308 with a `Location` by a request of
the same method that carries the body again (the body of `client.Post` is a
`bytes.Reader`, which can be replayed); every other response is returned to
the caller. -/
def redirectBehavior (req : Post) (status : Nat) (location : Option String) : Option Post :=
  match location with
  | none => none
  | some loc =>
    if status = 301 ∨ status = 302 ∨ status = 303 then some (.follow "GET" loc false)
    else if status = 307 ∨ status = 308 then some (.follow req.method loc true)
    else none

/-- What a handler reads from outside the request: the fresh UUID, the clock,
the draw of the random source, and the outcomes of the successive HTTP
exchanges with the backend. -/
structure Env where
  uuid : String
  now : Int
  rnd : Nat
  backend : List Attempt

/-- How a handler run ends: it returns, it panics, or it is still in the retry
loop when the listed backend outcomes are used up. -/
inductive Exit where
  | returned
  | panicked
  | retrying
deriving DecidableEq, Repr

/-- What a handler run does: the requests sent to the backend and the responses
written to the caller, in order, and how it ends. -/
structure Trace where
  posts : List Post
  writes : List Response
  exit : Exit

/-- A run that writes one response and returns. -/
def respond (r : Response) : Trace := { posts := [], writes := [r], exit := .returned }

/-! ## Handlers (`handlers.go`) -/

/-- The method `rootHandler`. -/
def rootHandler : Trace :=
  respond { Status := 200, ContentType := some "text/html; charset=utf-8", Body := .html }

/-- The method `pingHandler`. -/
def pingHandler : Trace :=
  respond { Status := 200, ContentType := none, Body := .empty }

/-- The method `notFoundHandler`. -/
def notFoundHandler : Trace := respond (errorResponse 404 (.text "404 page not found"))

/-- The method `notAllowedHandler`. -/
def notAllowedHandler : Trace := respond (errorResponse 405 (.text "405 Method Not Allowed"))

/-- The exchanges of the retry loop of `sendHandler`, one listed outcome at a
time. `first` is the request of `client.Post`, `req` the request now sent and
`via` the number of requests the current call has sent before it. A transport
failure makes the call return an error, and the loop calls `client.Post`
again. A response that is a redirect is followed inside the call, unless ten
requests were sent (the default policy: the call returns an error). Any other
response makes the call return without error, and the loop is left. The flag
tells whether the loop was left (`break`). -/
def postLoop.exchange (first : Post) : Nat → Post → List Attempt → List Post × Bool
  | _, _, [] => ([], false)
  | _, req, .transportError :: rest =>
    let r := postLoop.exchange first 0 first rest
    (req :: r.1, r.2)
  | via, req, .completed status location :: rest =>
    match redirectBehavior req status location with
    | none => ([req], true)
    | some next =>
      if via + 1 ≥ 10 then
        let r := postLoop.exchange first 0 first rest
        (req :: r.1, r.2)
      else
        let r := postLoop.exchange first (via + 1) next rest
        (req :: r.1, r.2)

/-- The retry loop of `sendHandler`: `client.Post(endpointURL, "application/json",
kmsg)` until it returns without error. -/
def postLoop (endpointURL : String) (kmsg : kafkaMessage) (attempts : List Attempt) :
    List Post × Bool :=
  postLoop.exchange (.post endpointURL "application/json" kmsg) 0
    (.post endpointURL "application/json" kmsg) attempts

/-- The method `sendHandler`. (`json.Marshal` of the envelope does not fail on a
decoded message, so that branch is left out.) -/
def sendHandler (s : Server) (env : Env) (r : Request) (p : Values) : Trace :=
  match r.Body with
  | .error e => respond (errorResponse 400 (.unableToReadBody e))
  | .ok msg =>
    let queueTopic := Values.Get p "queue"
    if queueTopic = "" then respond (errorResponse 400 (.text "Topic missing"))
    else
      match s.Cfg.Queue.lookup queueTopic with
      | none => respond (errorResponse 400 (.text "Unknown topic"))
      | some val =>
        match jsonUnmarshalMap msg with
        | none => respond (errorResponse 400 (.text "Message must be JSON"))
        | some m =>
          match getPartition env.rnd val.Balance val.Partitions val.Key m with
          | .panic => { posts := [], writes := [], exit := .panicked }
          | .error err => respond (errorResponse 400 (.ofError err))
          | .ok partition_ =>
            match r.RemoteHost with
            | .error e => respond (errorResponse 500 (.unableToGetClientIP e))
            | .ok remoteip =>
              let kmsg : kafkaMessage :=
                { ID := env.uuid, Accepted := env.now,
                  Sender := { IP := remoteip, Project := "", Cluster := "" }, Data := m }
              let endpointURL :=
                s.Cfg.Kafka.API ++ "/v1/topics/" ++ queueTopic ++ "/" ++ toString partition_
              let r := postLoop endpointURL kmsg env.backend
              if r.2 then { posts := r.1, writes := [successResponse "OK"], exit := .returned }
              else { posts := r.1, writes := [], exit := .retrying }

/-! ## The router (`Server.Run`) -/

/-- The four compiled patterns of the handler table. -/
inductive Pattern where
  /-- The pattern `^/v1/topics/(?P<queue>[A-Za-z0-9_-]+)/?$`. -/
  | topicsQueue
  /-- The pattern `^/v1/topics/?$`. -/
  | topics
  /-- The pattern `^/ping$`. -/
  | ping
  /-- The pattern `^/$`. -/
  | root
deriving DecidableEq, Repr

/-- Remove a literal from the front of a text, if it is there. -/
def dropLiteral : List Char → List Char → Option (List Char)
  | [], s => some s
  | _ :: _, [] => none
  | a :: as, b :: bs => if a = b then dropLiteral as bs else none

/-- The character class `[A-Za-z0-9_-]`. -/
def isQueueChar (c : Char) : Bool :=
  ('A' ≤ c && c ≤ 'Z') || ('a' ≤ c && c ≤ 'z') || ('0' ≤ c && c ≤ '9') || c == '_' || c == '-'

/-- The method `Regexp.FindStringSubmatch` on each pattern: `none` when the
path does not match, otherwise the whole match followed by the captures.
The anchors make the whole path the match; the class excludes the slash, so
the capture is the path after `/v1/topics/` without one optional final slash. -/
def Pattern.FindStringSubmatch : Pattern → String → Option (List String)
  | .topicsQueue, path =>
    match dropLiteral "/v1/topics/".toList path.toList with
    | none => none
    | some rest =>
      let seg := if rest.getLast? = some '/' then rest.dropLast else rest
      if seg ≠ [] ∧ seg.all isQueueChar = true then some [path, String.mk seg] else none
  | .topics, path => if path = "/v1/topics" ∨ path = "/v1/topics/" then some [path] else none
  | .ping, path => if path = "/ping" then some [path] else none
  | .root, path => if path = "/" then some [path] else none

/-- The method `Regexp.SubexpNames`: the empty name of the whole match, then
the names of the groups. -/
def Pattern.SubexpNames : Pattern → List String
  | .topicsQueue => ["", "queue"]
  | .topics => [""]
  | .ping => [""]
  | .root => [""]

/-- The handler methods a binding can name. -/
inductive Handler where
  | rootHandler
  | pingHandler
  | notFoundHandler
  | notAllowedHandler
  | sendHandler
deriving DecidableEq, Repr

/-- Run a handler method. -/
def Handler.run (h : Handler) (s : Server) (env : Env) (r : Request) (p : Values) : Trace :=
  match h with
  | .rootHandler => KafkaHttpApi.rootHandler
  | .pingHandler => KafkaHttpApi.pingHandler
  | .notFoundHandler => KafkaHttpApi.notFoundHandler
  | .notAllowedHandler => KafkaHttpApi.notAllowedHandler
  | .sendHandler => KafkaHttpApi.sendHandler s env r p

/-- The struct `httpHandler`: one binding of the table. -/
structure httpHandler where
  LimitConns : Bool
  Regexp : Pattern
  GETHandler : Handler
  POSTHandler : Handler
deriving DecidableEq, Repr

/-- The table `handlers` of `Server.Run`, in its order. -/
def handlers : List httpHandler :=
  [ { Regexp := .topicsQueue, LimitConns := true,
      GETHandler := .notAllowedHandler, POSTHandler := .sendHandler },
    { Regexp := .topics, LimitConns := true,
      GETHandler := .notAllowedHandler, POSTHandler := .sendHandler },
    { Regexp := .ping, LimitConns := false,
      GETHandler := .pingHandler, POSTHandler := .notAllowedHandler },
    { Regexp := .root, LimitConns := false,
      GETHandler := .rootHandler, POSTHandler := .notAllowedHandler } ]

/-- The loop over `SubexpNames`: every named group but index 0 is set in `p`. -/
def setCaptures (p : Values) (names submatch : List String) : Values :=
  ((names.zip submatch).drop 1).foldl (fun q e => Values.Set q e.1 e.2) p

/-- What the router does with a request: answer 503 itself, or invoke one
handler with the parameters `p`. -/
inductive Decision where
  | tooManyConnections
  | invoke (h : Handler) (p : Values)
deriving DecidableEq, Repr

/-- The `range handlers` loop of the router closure and the fall-through to
`notFoundHandler`. -/
def route (s : Server) (cl : ConnTrack) (req : Request) (p : Values) :
    List httpHandler → Decision
  | [] => .invoke .notFoundHandler p
  | a :: rest =>
    match a.Regexp.FindStringSubmatch req.Path with
    | none => route s cl req p rest
    | some submatch =>
      if a.LimitConns = true ∧ s.Cfg.Global.MaxConns > 0 ∧ cl.Conns ≥ s.Cfg.Global.MaxConns then
        .tooManyConnections
      else
        let q := setCaptures p a.Regexp.SubexpNames submatch
        if req.Method = "GET" then .invoke a.GETHandler q
        else if req.Method = "POST" then .invoke a.POSTHandler q
        else .invoke .notAllowedHandler q

/-- One request through the router closure. -/
structure Served where
  /-- The server after the deferred `closeConnTrack`. -/
  server : Server
  /-- The record returned by `newConnTrack`. -/
  cl : ConnTrack
  /-- The handler methods invoked, with the parameters passed. -/
  calls : List (Handler × Values)
  /-- What was sent and written. -/
  trace : Trace

/-- The closure registered on `/`, for a request the mux gives to it:
`newConnTrack`, the deferred `closeConnTrack`, the routing loop, and the
handler it invokes. -/
def ServeHTTP (s : Server) (env : Env) (req : Request) : Served :=
  let opened := newConnTrack s
  let cl := opened.1
  let s1 := opened.2
  match route s1 cl req req.Query handlers with
  | .tooManyConnections =>
    { server := closeConnTrack s1 cl, cl := cl, calls := [],
      trace := respond (errorResponse 503 (.text "Too many connections")) }
  | .invoke h p =>
    { server := closeConnTrack s1 cl, cl := cl, calls := [(h, p)],
      trace := h.run s1 env req p }

/-- The first binding whose pattern matches the path. -/
def matchedBinding (path : String) : Option httpHandler :=
  handlers.find? fun a => (a.Regexp.FindStringSubmatch path).isSome

/-! ## The mux of `Server.Run`

`Server.Run` registers the router closure on a `http.ServeMux` under `/`, next
to `/debug/vars` and `/debug/pprof/`, both handed to `http.DefaultServeMux`
(which holds the handlers of `net/http/pprof`). The mux sees every request
first. -/

/-- Split a text at every slash. -/
def splitSlash : List Char → List (List Char)
  | [] => [[]]
  | c :: cs =>
    match splitSlash cs with
    | [] => [[c]]
    | seg :: segs => if c = '/' then [] :: seg :: segs else (c :: seg) :: segs

/-- The function `path.Clean` on a rooted path: empty and `.` elements are
dropped, a `..` element removes the element before it. -/
def pathClean (p : List Char) : List Char :=
  '/' :: List.intercalate ['/']
    ((splitSlash p).foldl
      (fun st e =>
        if e = [] ∨ e = ['.'] then st
        else if e = ['.', '.'] then st.dropLast
        else st ++ [e])
      [])

/-- The function `cleanPath` of `net/http`: the empty path is `/`, a path is
made rooted, cleaned, and keeps its final slash. -/
def cleanPath (p : String) : String :=
  if p = "" then "/"
  else
    let q := if p.toList.head? = some '/' then p.toList else '/' :: p.toList
    let np := pathClean q
    if q.getLast? = some '/' ∧ np ≠ ['/'] then String.mk (np ++ ['/']) else String.mk np

/-- Who serves a pattern of the mux. -/
inductive MuxTarget where
  /-- The handler `http.DefaultServeMux`. -/
  | defaultServeMux
  /-- The router closure. -/
  | router
deriving DecidableEq, Repr

/-- The patterns registered in `Server.Run`. -/
def muxPatterns : List (String × MuxTarget) :=
  [("/debug/vars", .defaultServeMux), ("/debug/pprof/", .defaultServeMux), ("/", .router)]

/-- What the mux does with a request. -/
inductive MuxOutcome where
  /-- The mux answers itself with a redirect to this path. -/
  | redirect (location : String)
  /-- No pattern matches: the mux answers with its own plain 404. -/
  | notFound
  /-- The request is given to the handler of a pattern. -/
  | handler (t : MuxTarget)
deriving DecidableEq, Repr

/-- The pattern lookup of `ServeMux`: a pattern equal to the path, or else the
longest pattern ending in a slash that the path starts with. -/
def muxMatch (path : String) : MuxOutcome :=
  match muxPatterns.find? (fun e => e.1 = path) with
  | some e => .handler e.2
  | none =>
    match (muxPatterns.filter (fun e =>
        e.1.toList.getLast? = some '/' ∧ (dropLiteral e.1.toList path.toList).isSome)).foldl
        (fun (best : Option (String × MuxTarget)) e =>
          match best with
          | none => some e
          | some b => if b.1.length < e.1.length then some e else some b)
        none with
    | some e => .handler e.2
    | none => .notFound

/-- The mux redirects `path` to `path/` when only the latter is registered. -/
def muxAddsSlash (path : String) : Bool :=
  decide (path ≠ "") && !(muxPatterns.any (fun e => e.1 = path))
    && muxPatterns.any (fun e => e.1 = path ++ "/")

/-- The method `ServeMux.Handler`: a CONNECT request is looked up as it is; any
other request whose path is not clean is redirected to the clean path. -/
def muxHandler (method path : String) : MuxOutcome :=
  if method = "CONNECT" then
    if muxAddsSlash path then .redirect (path ++ "/") else muxMatch path
  else
    let cp := cleanPath path
    if muxAddsSlash cp then .redirect (cp ++ "/")
    else if cp ≠ path then .redirect cp
    else muxMatch path

/-- One request through the server of `Server.Run`. -/
inductive RunOutcome where
  /-- The mux answered with a redirect. -/
  | redirected (location : String)
  /-- The mux answered with its own plain 404. -/
  | muxNotFound
  /-- The request went to `http.DefaultServeMux`. -/
  | defaultServeMux
  /-- The request went to the router closure. -/
  | served (sv : Served)

/-- The server of `Server.Run`: the mux, and behind it the router closure. -/
def Run (s : Server) (env : Env) (req : Request) : RunOutcome :=
  match muxHandler req.Method req.Path with
  | .redirect location => .redirected location
  | .notFound => .muxNotFound
  | .handler .defaultServeMux => .defaultServeMux
  | .handler .router => .served (ServeHTTP s env req)

/-! ## Concurrent requests over the two counters

Each request runs the router closure in its own goroutine. The shared state
is touched only by the three atomic additions: on `lastConnID` and on
`connsCount` in `newConnTrack`, and on `connsCount` in `closeConnTrack`. An
event is one of these additions by one goroutine. -/

/-- A request between `newConnTrack` and its deferred `closeConnTrack`. -/
structure Conn where
  cl : ConnTrack
  req : Request

/-- The server together with its running requests. -/
structure Sys where
  srv : Server
  /-- Requests that hold a `ConnID` and have not yet added to `connsCount`. -/
  starting : List (Int × Request)
  /-- Requests past `newConnTrack`, not yet closed; oldest first. -/
  inflight : List Conn
  /-- Every `ConnID` handed out so far, newest first. -/
  issued : List Int

/-- One atomic addition by one goroutine. -/
inductive Event where
  /-- A new request performs `atomic.AddInt64(&s.lastConnID, 1)`. -/
  | arrive (req : Request)
  /-- The starting request at index `i` performs `atomic.AddInt64(&s.connsCount, 1)`. -/
  | count (i : Nat)
  /-- The in-flight request at index `j` performs `closeConnTrack`. -/
  | close (j : Nat)

/-- A server that has served nothing yet. -/
def Sys.init (cfg : Config) : Sys :=
  { srv := { lastConnID := 0, connsCount := 0, Cfg := cfg },
    starting := [], inflight := [], issued := [] }

/-- One event; `none` when the index names no request. -/
def Sys.step (st : Sys) : Event → Option Sys
  | .arrive req =>
    let id := atomicAddInt64 st.srv.lastConnID 1
    some { st with srv := { st.srv with lastConnID := id },
                   starting := st.starting ++ [(id, req)],
                   issued := id :: st.issued }
  | .count i =>
    match st.starting[i]? with
    | none => none
    | some (id, req) =>
      let conns := atomicAddInt64 st.srv.connsCount 1
      some { st with srv := { st.srv with connsCount := conns },
                     starting := st.starting.eraseIdx i,
                     inflight := st.inflight ++ [{ cl := { ConnID := id, Conns := conns }, req := req }] }
  | .close j =>
    match st.inflight[j]? with
    | none => none
    | some c =>
      some { st with srv := closeConnTrack st.srv c.cl,
                     inflight := st.inflight.eraseIdx j }

/-- A sequence of events. -/
def Sys.run (st : Sys) : List Event → Option Sys
  | [] => some st
  | e :: es =>
    match st.step e with
    | none => none
    | some st1 => Sys.run st1 es

/-- The request matched an admission-controlled binding and the router did not
answer 503: a handler of the binding was invoked. -/
def passedAdmission (s : Server) (c : Conn) : Bool :=
  match matchedBinding c.req.Path with
  | none => false
  | some a =>
    a.LimitConns && decide (route s c.cl c.req c.req.Query handlers ≠ .tooManyConnections)

/-! ## Spec-side definitions -/

/-- Spec side of the router: what is done once the binding `a` has matched the
path with `submatch`. The admission check comes first; otherwise the captures
are merged into the parameters and the method picks the handler. -/
def bindingDecision (s : Server) (cl : ConnTrack) (req : Request) (p : Values)
    (a : httpHandler) (submatch : List String) : Decision :=
  if a.LimitConns = true ∧ s.Cfg.Global.MaxConns > 0 ∧ cl.Conns ≥ s.Cfg.Global.MaxConns then
    .tooManyConnections
  else
    .invoke
      (if req.Method = "GET" then a.GETHandler
       else if req.Method = "POST" then a.POSTHandler
       else .notAllowedHandler)
      (setCaptures p a.Regexp.SubexpNames submatch)

/-- Spec side of the router: the route table, by path and method. -/
def routeTable (path method : String) : Handler :=
  if (Pattern.topicsQueue.FindStringSubmatch path).isSome
      ∨ (Pattern.topics.FindStringSubmatch path).isSome then
    if method = "POST" then .sendHandler else .notAllowedHandler
  else if path = "/ping" then
    if method = "GET" then .pingHandler else .notAllowedHandler
  else if path = "/" then
    if method = "GET" then .rootHandler else .notAllowedHandler
  else .notFoundHandler

/-- Ranking of the in-flight requests, oldest first, counted from `k`: each
request holds a count `Conns` that is at least its rank. -/
def Ranked : Nat → List Conn → Prop
  | _, [] => True
  | k, c :: cs => (k : Int) + 1 ≤ c.cl.Conns ∧ Ranked (k + 1) cs

/-- The invariant of the counters and the running requests after at most `n`
events. -/
structure Inv (cfg : Config) (n : Nat) (st : Sys) : Prop where
  cfg_eq : st.srv.Cfg = cfg
  count_eq : st.srv.connsCount = st.inflight.length
  id_eq : st.srv.lastConnID = st.issued.length
  issued_le_last : ∀ x ∈ st.issued, x ≤ st.srv.lastConnID
  issued_sorted : st.issued.Pairwise (fun a b => a > b)
  ranked : Ranked 0 st.inflight
  inflight_le : st.inflight.length ≤ n
  issued_le : st.issued.length ≤ n

/-! ## Example data -/

/-- Example configuration: ceiling 2 and five topics. -/
def exampleConfig : Config :=
  { Global := { MaxConns := 2 },
    Kafka := { API := "http://backend" },
    Queue := [("clicks", { Partitions := 4, Balance := "key", Key := ["user_id"] }),
              ("logs", { Partitions := 4, Balance := "random", Key := [] }),
              ("zero", { Partitions := 0, Balance := "random", Key := [] }),
              ("zerokey", { Partitions := 0, Balance := "key", Key := ["user_id"] }),
              ("minus", { Partitions := -1, Balance := "key", Key := ["user_id"] })] }

/-- A server that has served nothing yet. -/
def exampleServer : Server := { lastConnID := 0, connsCount := 0, Cfg := exampleConfig }

/-- Example surroundings: the first backend POST fails at the transport level,
the second completes with status 500. -/
def exampleEnv : Env :=
  { uuid := "6ba7b810-9dad-41d1-80b4-00c04fd430c8", now := 1446638400000000000, rnd := 7,
    backend := [.transportError, .completed 500 none] }

/-- Surroundings in which the backend answers the first exchange with a 307
to another address, and the exchange there completes with status 200. -/
def redirectEnv : Env :=
  { uuid := "6ba7b810-9dad-41d1-80b4-00c04fd430c8", now := 1446638400000000000, rnd := 7,
    backend := [.completed 307 (some "http://other/v1/topics/clicks/2"), .completed 200 none] }

/-- Surroundings in which the backend answers the first exchange with a 307
to another address, the exchange there fails at the transport level, and the
next exchange completes with status 200. -/
def brokenRedirectEnv : Env :=
  { uuid := "6ba7b810-9dad-41d1-80b4-00c04fd430c8", now := 1446638400000000000, rnd := 7,
    backend := [.completed 307 (some "http://other/v1/topics/clicks/2"), .transportError,
                .completed 200 none] }

/-- A POST whose body was read and whose client address is well formed. -/
def examplePost (path : String) (query : Values) (body : BodyContent) : Request :=
  { Method := "POST", Path := path, Query := query, Body := .ok body,
    RemoteHost := .ok "192.0.2.7" }

/-- The example message of the spec. -/
def clickMessage : JValue :=
  .object [("user_id", .string "42"), ("event", .string "click")]

/-- A server at its ceiling: two requests in flight. -/
def busyServer : Server := { lastConnID := 2, connsCount := 2, Cfg := exampleConfig }

/-- Two POSTs to `/v1/topics/clicks` arrive and pass `newConnTrack`, one after
the other. -/
def exampleEvents : List Event :=
  [.arrive (examplePost "/v1/topics/clicks" [] (.json clickMessage)), .count 0,
   .arrive (examplePost "/v1/topics/clicks" [] (.json clickMessage)), .count 0]

/-- The state after `exampleEvents`: both requests in flight, with counts 1 and 2. -/
def exampleState : Sys :=
  { srv := { lastConnID := 2, connsCount := 2, Cfg := exampleConfig },
    starting := [],
    inflight := [{ cl := { ConnID := 1, Conns := 1 },
                   req := examplePost "/v1/topics/clicks" [] (.json clickMessage) },
                 { cl := { ConnID := 2, Conns := 2 },
                   req := examplePost "/v1/topics/clicks" [] (.json clickMessage) }],
    issued := [2, 1] }

/-! ## Theorems -/

theorem sha1Sum_length (msg : List Nat) : (sha1Sum msg).length = 20 := by
  simp [sha1Sum, be32bytes]

theorem binaryReadUint64LE_sha1Sum (msg : List Nat) :
    binaryReadUint64LE (sha1Sum msg) = .ok (le64 ((sha1Sum msg).take 8)) := by
  simp [binaryReadUint64LE, sha1Sum_length]

theorem uint64_of_pos (n : Int) (hpos : 0 < n) (hlt : n < 2 ^ 63) : uint64 n = n.toNat := by
  unfold uint64
  rw [Int.emod_eq_of_lt (by omega) (by omega)]

theorem loop_ok (message : GoMap) (components values : List String)
    (h : List.Forall₂ (fun k v => message.lookup k = some (JValue.string v)) components values)
    (keyArr : List String) :
    getPartitionByKey.loop message components keyArr = .ok (keyArr ++ values) := by
  induction h generalizing keyArr with
  | nil => simp [getPartitionByKey.loop]
  | cons hkv _ ih => simp [getPartitionByKey.loop, hkv, ih]

/-- A listed key field that is absent from the message or holds no string. -/
theorem loop_error_iff (message : GoMap) (components : List String) (keyArr : List String) :
    (∃ e, getPartitionByKey.loop message components keyArr = .error e) ↔
      ∃ k ∈ components, ∀ v, message.lookup k ≠ some (JValue.string v) := by
  induction components generalizing keyArr with
  | nil => simp [getPartitionByKey.loop]
  | cons k rest ih =>
    cases hk : message.lookup k with
    | none => simp [getPartitionByKey.loop, hk]
    | some val =>
      cases val <;> simp [getPartitionByKey.loop, hk, ih]

theorem loop_ne_panic (message : GoMap) (components : List String) (keyArr : List String) :
    getPartitionByKey.loop message components keyArr ≠ .panic := by
  induction components generalizing keyArr with
  | nil => simp [getPartitionByKey.loop]
  | cons k rest ih =>
    cases hk : message.lookup k with
    | none => simp [getPartitionByKey.loop, hk]
    | some val =>
      cases val <;> simp [getPartitionByKey.loop, hk, ih]


theorem getPartitionByKey_ok (message : GoMap) (components values : List String)
    (h : List.Forall₂ (fun k v => message.lookup k = some (JValue.string v)) components values) :
    getPartitionByKey components message
      = .ok (le64 ((sha1Sum (bytesOf (String.intercalate "/" values))).take 8)) := by
  simp [getPartitionByKey, loop_ok message components values h, binaryReadUint64LE_sha1Sum]

theorem getPartitionByKey_error_iff (components : List String) (message : GoMap) :
    (∃ e, getPartitionByKey components message = .error e) ↔
      ∃ k ∈ components, ∀ v, message.lookup k ≠ some (JValue.string v) := by
  rw [← loop_error_iff message components []]
  unfold getPartitionByKey
  cases h : getPartitionByKey.loop message components [] with
  | ok keyArr => simp [binaryReadUint64LE_sha1Sum]
  | error e => simp
  | panic => simp

theorem getPartitionByKey_ne_panic (components : List String) (message : GoMap) :
    getPartitionByKey components message ≠ .panic := by
  unfold getPartitionByKey
  cases h : getPartitionByKey.loop message components [] with
  | ok keyArr => simp [binaryReadUint64LE_sha1Sum]
  | error e => simp
  | panic => exact absurd h (loop_ne_panic _ _ _)

theorem getPartition_key_error_iff (rnd : Nat) (n : Int) (components : List String)
    (message : GoMap) :
    (∃ e, getPartition rnd "key" n components message = .error e) ↔
      ∃ k ∈ components, ∀ v, message.lookup k ≠ some (JValue.string v) := by
  rw [← getPartitionByKey_error_iff]
  unfold getPartition
  cases h : getPartitionByKey components message with
  | ok v => by_cases hz : uint64 n = 0 <;> simp [hz]
  | error e => simp
  | panic => simp

/-- C1. With balance "key", a key-field list whose fields are all present in the
message with string values `values` (in list order), and a partition count
`0 < n` (an `int64`): `getPartition` succeeds and returns the first eight bytes
of the SHA-1 of the values joined with "/", read as a little-endian unsigned
64-bit integer, modulo `n`; the result is below `n`; and any other message (and
any other draw of the random source) that gives the key fields the same values
yields the same result. -/
theorem getPartition_key_spec (rnd : Nat) (keyFields : List String) (message : GoMap)
    (values : List String) (n : Int)
    (hfields : List.Forall₂ (fun k v => message.lookup k = some (JValue.string v)) keyFields values)
    (hpos : 0 < n) (hint64 : n < 2 ^ 63) :
    getPartition rnd "key" n keyFields message = .ok (specKeyPartition values n.toNat)
    ∧ specKeyPartition values n.toNat
        = le64 ((sha1Sum (bytesOf (String.intercalate "/" values))).take 8) % n.toNat
    ∧ ((specKeyPartition values n.toNat : Nat) : Int) < n
    ∧ ∀ (rnd2 : Nat) (message2 : GoMap),
        List.Forall₂ (fun k v => message2.lookup k = some (JValue.string v)) keyFields values →
        getPartition rnd2 "key" n keyFields message2 = getPartition rnd "key" n keyFields message := by
  have hu : uint64 n = n.toNat := uint64_of_pos n hpos hint64
  have hnz : n.toNat ≠ 0 := by omega
  have key : ∀ (r : Nat) (m : GoMap),
      List.Forall₂ (fun k v => m.lookup k = some (JValue.string v)) keyFields values →
      getPartition r "key" n keyFields m = .ok (specKeyPartition values n.toNat) := by
    intro r m hm
    simp [getPartition, getPartitionByKey_ok m keyFields values hm, hu, hnz, specKeyPartition]
  refine ⟨key rnd message hfields, rfl, ?_, ?_⟩
  · have : specKeyPartition values n.toNat < n.toNat := Nat.mod_lt _ (by omega)
    omega
  · intro r2 m2 h2
    rw [key r2 m2 h2, key rnd message hfields]

set_option maxRecDepth 100000 in
/-- C1 at the spec's example: key fields `["user_id"]`, message
`{"user_id":"42","event":"click"}`, four partitions: partition 2. -/
theorem getPartition_key_spec_witness :
    getPartition 0 "key" 4 ["user_id"]
        [("user_id", JValue.string "42"), ("event", JValue.string "click")] = .ok 2
    ∧ specKeyPartition ["42"] 4 = 2 := by
  have h := getPartition_key_spec 0 ["user_id"]
    [("user_id", JValue.string "42"), ("event", JValue.string "click")] ["42"] 4
    (List.Forall₂.cons rfl List.Forall₂.nil) (by decide) (by decide)
  have e : specKeyPartition ["42"] 4 = 2 := by decide
  exact ⟨by rw [h.1]; exact congrArg Outcome.ok e, e⟩

/-- The send handler once the body is read, the topic resolved and the body
decoded: only partition selection, address extraction and forwarding remain. -/
theorem sendHandler_selected (s : Server) (env : Env) (r : Request) (p : Values)
    (body : BodyContent) (val : ConfigQueue) (m : GoMap)
    (hbody : r.Body = .ok body) (htopic : Values.Get p "queue" ≠ "")
    (hcfg : s.Cfg.Queue.lookup (Values.Get p "queue") = some val)
    (hjson : jsonUnmarshalMap body = some m) :
    sendHandler s env r p =
      match getPartition env.rnd val.Balance val.Partitions val.Key m with
      | .panic => { posts := [], writes := [], exit := .panicked }
      | .error err => respond (errorResponse 400 (.ofError err))
      | .ok partition_ =>
        match r.RemoteHost with
        | .error e => respond (errorResponse 500 (.unableToGetClientIP e))
        | .ok remoteip =>
          let kmsg : kafkaMessage :=
            { ID := env.uuid, Accepted := env.now,
              Sender := { IP := remoteip, Project := "", Cluster := "" }, Data := m }
          let endpointURL :=
            s.Cfg.Kafka.API ++ "/v1/topics/" ++ Values.Get p "queue" ++ "/" ++ toString partition_
          let r := postLoop endpointURL kmsg env.backend
          if r.2 then { posts := r.1, writes := [successResponse "OK"], exit := .returned }
          else { posts := r.1, writes := [], exit := .retrying } := by
  simp only [sendHandler, hbody, htopic, hcfg, hjson, if_false]

/-- C2. Key-strategy selection returns an error (and so no partition) exactly
when some listed key field is absent from the message or holds a value that is
not a string: for `getPartitionByKey`, and for `getPartition` with balance
"key" whatever the partition count. `getPartitionByKey` never panics, and
`getPartition` does not panic on a message with such a field. When the send
handler reaches selection with such a message it writes one 400 error
response carrying the selector error, and sends nothing to the backend. -/
theorem key_selection_error_iff (components : List String) (message : GoMap) :
    ((∃ e, getPartitionByKey components message = .error e) ↔
        ∃ k ∈ components, ∀ v, message.lookup k ≠ some (JValue.string v))
    ∧ (∀ (rnd : Nat) (n : Int),
        (∃ e, getPartition rnd "key" n components message = .error e) ↔
          ∃ k ∈ components, ∀ v, message.lookup k ≠ some (JValue.string v))
    ∧ getPartitionByKey components message ≠ .panic
    ∧ ((∃ k ∈ components, ∀ v, message.lookup k ≠ some (JValue.string v)) →
        ∀ (rnd : Nat) (n : Int), getPartition rnd "key" n components message ≠ .panic)
    ∧ ((∃ k ∈ components, ∀ v, message.lookup k ≠ some (JValue.string v)) →
        ∀ (s : Server) (env : Env) (r : Request) (p : Values) (body : BodyContent)
          (val : ConfigQueue),
          r.Body = .ok body → Values.Get p "queue" ≠ "" →
          s.Cfg.Queue.lookup (Values.Get p "queue") = some val →
          val.Balance = "key" → val.Key = components →
          jsonUnmarshalMap body = some message →
          ∃ e, sendHandler s env r p =
            { posts := [], exit := .returned,
              writes := [{ Status := 400, ContentType := some "application/json",
                           Body := RespBody.json (JSONResponse.mk "error"
                             (JSONData.err (JSONErrorData.mk 400 (ErrText.ofError e)))) }] }) := by
  refine ⟨getPartitionByKey_error_iff components message,
    fun rnd n => getPartition_key_error_iff rnd n components message,
    getPartitionByKey_ne_panic components message, ?_, ?_⟩
  · intro hbad rnd n
    obtain ⟨e, he⟩ := (getPartition_key_error_iff rnd n components message).2 hbad
    simp [he]
  · intro hbad s env r p body val hbody htopic hcfg hbal hkey hjson
    obtain ⟨e, he⟩ :=
      (getPartition_key_error_iff env.rnd val.Partitions components message).2 hbad
    refine ⟨e, ?_⟩
    rw [sendHandler_selected s env r p body val message hbody htopic hcfg hjson, hbal, hkey, he]
    rfl

theorem redirectBehavior_none (req : Post) (status : Nat) (location : Option String)
    (hstatus : status ≠ 301 ∧ status ≠ 302 ∧ status ≠ 303 ∧ status ≠ 307 ∧ status ≠ 308) :
    redirectBehavior req status location = none := by
  obtain ⟨h1, h2, h3, h4, h5⟩ := hstatus
  cases location <;> simp [redirectBehavior, h1, h2, h3, h4, h5]

theorem postLoop_completed (url : String) (kmsg : kafkaMessage) (n status : Nat)
    (location : Option String) (later : List Attempt)
    (hstatus : status ≠ 301 ∧ status ≠ 302 ∧ status ≠ 303 ∧ status ≠ 307 ∧ status ≠ 308) :
    postLoop url kmsg (List.replicate n .transportError ++ .completed status location :: later)
      = (List.replicate (n + 1) (.post url "application/json" kmsg), true) := by
  unfold postLoop
  induction n with
  | zero => simp [postLoop.exchange, redirectBehavior_none _ status location hstatus]
  | succ k ih => simp [postLoop.exchange, List.replicate_succ, ih]

theorem postLoop_failing (url : String) (kmsg : kafkaMessage) (n : Nat) :
    postLoop url kmsg (List.replicate n .transportError)
      = (List.replicate n (.post url "application/json" kmsg), false) := by
  unfold postLoop
  induction n with
  | zero => simp [postLoop.exchange]
  | succ k ih => simp [postLoop.exchange, List.replicate_succ, ih]

/-- C2 at a concrete request: topic `clicks` (key strategy on `user_id`), a body
whose `user_id` is a number. -/
theorem key_selection_error_iff_witness :
    (∃ e, getPartitionByKey ["user_id"] [("user_id", JValue.number "42")] = .error e)
    ∧ ∃ e, sendHandler exampleServer exampleEnv
        (examplePost "/v1/topics/clicks" [] (.json (.object [("user_id", .number "42")])))
        [("queue", ["clicks"])] =
      { posts := [], exit := .returned,
        writes := [{ Status := 400, ContentType := some "application/json",
                     Body := RespBody.json (JSONResponse.mk "error"
                       (JSONData.err (JSONErrorData.mk 400 (ErrText.ofError e)))) }] } := by
  have h := key_selection_error_iff ["user_id"] [("user_id", JValue.number "42")]
  have hbad : ∃ k ∈ ["user_id"], ∀ v,
      List.lookup k [("user_id", JValue.number "42")] ≠ some (JValue.string v) :=
    ⟨"user_id", by simp, by intro v; simp [List.lookup]⟩
  exact ⟨h.1.2 hbad, h.2.2.2.2 hbad exampleServer exampleEnv _ _ _
    { Partitions := 4, Balance := "key", Key := ["user_id"] } rfl (by decide) rfl rfl rfl rfl⟩

/-- Once a partition is selected and the client address extracted, the send
handler only forwards: it writes the success response or is still retrying. -/
theorem sendHandler_forwarded (s : Server) (env : Env) (r : Request) (p : Values)
    (body : BodyContent) (val : ConfigQueue) (m : GoMap) (v : Nat) (ip : String)
    (hbody : r.Body = .ok body) (htopic : Values.Get p "queue" ≠ "")
    (hcfg : s.Cfg.Queue.lookup (Values.Get p "queue") = some val)
    (hjson : jsonUnmarshalMap body = some m)
    (hg : getPartition env.rnd val.Balance val.Partitions val.Key m = .ok v)
    (hr : r.RemoteHost = .ok ip) :
    ∃ posts, sendHandler s env r p
        = { posts := posts, writes := [successResponse "OK"], exit := .returned }
      ∨ sendHandler s env r p = { posts := posts, writes := [], exit := .retrying } := by
  rw [sendHandler_selected s env r p body val m hbody htopic hcfg hjson, hg, hr]
  simp only []
  split
  · exact ⟨_, Or.inl rfl⟩
  · exact ⟨_, Or.inr rfl⟩

set_option maxRecDepth 100000 in
/-- C3 (counterexample). Three topics with a non-positive partition count.
Count 0, key strategy, key field missing: the response is a 400, not a 500.
Count 0, random strategy: the handler panics and writes nothing. Count -1, key
strategy, key field present: a partition is selected and the message is
forwarded. -/
theorem nonpositive_partitions_counterexample :
    (sendHandler exampleServer exampleEnv
        (examplePost "/v1/topics/zerokey" [] (.json (.object [("event", .string "click")])))
        [("queue", ["zerokey"])]).writes
      = [errorResponse 400 (.ofError .cantFindKeyComponents)]
    ∧ ((sendHandler exampleServer exampleEnv
        (examplePost "/v1/topics/zero" [] (.json clickMessage)) [("queue", ["zero"])]).exit
      = .panicked
      ∧ (sendHandler exampleServer exampleEnv
        (examplePost "/v1/topics/zero" [] (.json clickMessage)) [("queue", ["zero"])]).writes
      = [])
    ∧ ((sendHandler exampleServer exampleEnv
        (examplePost "/v1/topics/minus" [] (.json clickMessage)) [("queue", ["minus"])]).writes
      = [successResponse "OK"]
      ∧ (sendHandler exampleServer exampleEnv
        (examplePost "/v1/topics/minus" [] (.json clickMessage))
          [("queue", ["minus"])]).posts.map (fun q => q.url)
      = ["http://backend/v1/topics/minus/1502328285542928274",
         "http://backend/v1/topics/minus/1502328285542928274"]) := by
  decide

/-- C3 (amended). For a topic of any partition count, in particular one that is
`<= 0`: whenever
partition selection returns an error the send handler answers 400 with that
error; with the key strategy this is the case exactly when a listed key field
is absent or not a string; and a response 500 is written only after a
partition was selected, when the client address cannot be extracted: never on
account of partition selection. -/
theorem selection_error_is_bad_request (s : Server) (env : Env) (r : Request) (p : Values)
    (body : BodyContent) (val : ConfigQueue) (m : GoMap)
    (hbody : r.Body = .ok body) (htopic : Values.Get p "queue" ≠ "")
    (hcfg : s.Cfg.Queue.lookup (Values.Get p "queue") = some val)
    (hjson : jsonUnmarshalMap body = some m) :
    (∀ e, getPartition env.rnd val.Balance val.Partitions val.Key m = .error e →
        sendHandler s env r p = respond (errorResponse 400 (.ofError e))
        ∧ (errorResponse 400 (.ofError e)).Status = 400)
    ∧ (val.Balance = "key" →
        ((∃ e, sendHandler s env r p = respond (errorResponse 400 (.ofError e))) ↔
          ∃ k ∈ val.Key, ∀ v, m.lookup k ≠ some (JValue.string v)))
    ∧ (∀ w ∈ (sendHandler s env r p).writes, w.Status = 500 →
        ∃ partition_ e, getPartition env.rnd val.Balance val.Partitions val.Key m = .ok partition_
          ∧ r.RemoteHost = .error e) := by
  have hs := sendHandler_selected s env r p body val m hbody htopic hcfg hjson
  refine ⟨?_, ?_, ?_⟩
  · intro e he
    rw [hs, he]
    exact ⟨rfl, rfl⟩
  · intro hbal
    rw [← getPartition_key_error_iff env.rnd val.Partitions val.Key m]
    cases hg : getPartition env.rnd "key" val.Partitions val.Key m with
    | ok v =>
      rw [← hbal] at hg
      cases hr : r.RemoteHost with
      | error e =>
        rw [hs, hg, hr]
        simp [respond, errorResponse, writeResponse]
      | ok ip =>
        obtain ⟨posts, h | h⟩ :=
          sendHandler_forwarded s env r p body val m v ip hbody htopic hcfg hjson hg hr
        · rw [h]; simp [respond, errorResponse, writeResponse, successResponse]
        · rw [h]; simp [respond]
    | error e =>
      rw [← hbal] at hg
      rw [hs, hg]
      simp [respond, errorResponse, writeResponse]
    | panic =>
      rw [← hbal] at hg
      rw [hs, hg]
      simp [respond]
  · intro w hw h500
    cases hg : getPartition env.rnd val.Balance val.Partitions val.Key m with
    | ok v =>
      cases hr : r.RemoteHost with
      | error e => exact ⟨v, e, rfl, rfl⟩
      | ok ip =>
        obtain ⟨posts, h | h⟩ :=
          sendHandler_forwarded s env r p body val m v ip hbody htopic hcfg hjson hg hr
        · rw [h] at hw
          simp [successResponse, writeResponse] at hw
          subst hw
          simp at h500
        · rw [h] at hw
          simp at hw
    | error e =>
      rw [hs, hg] at hw
      simp [respond, errorResponse, writeResponse] at hw
      subst hw
      simp at h500
    | panic =>
      rw [hs, hg] at hw
      simp at hw

/-- C3 (amended) at the topic `zerokey` (count 0, key strategy on `user_id`) and
a body without `user_id`. -/
theorem selection_error_is_bad_request_witness :
    sendHandler exampleServer exampleEnv
        (examplePost "/v1/topics/zerokey" [] (.json (.object [("event", .string "click")])))
        [("queue", ["zerokey"])]
      = respond (errorResponse 400 (.ofError .cantFindKeyComponents))
    ∧ (errorResponse 400 (.ofError .cantFindKeyComponents)).Status = 400 :=
  (selection_error_is_bad_request exampleServer exampleEnv
    (examplePost "/v1/topics/zerokey" [] (.json (.object [("event", .string "click")])))
    [("queue", ["zerokey"])] (.json (.object [("event", .string "click")]))
    { Partitions := 0, Balance := "key", Key := ["user_id"] } [("event", .string "click")]
    rfl (by decide) rfl rfl).1 .cantFindKeyComponents rfl

set_option maxRecDepth 100000 in
/-- C4 (counterexample). Topic `logs` (random strategy, four partitions), body
`null`: the handler does not answer "Message must be JSON"; it forwards an
envelope to the backend and answers 200. -/
theorem null_body_counterexample :
    (sendHandler exampleServer exampleEnv (examplePost "/v1/topics/logs" [] (.json .null))
        [("queue", ["logs"])]).writes = [successResponse "OK"]
    ∧ (sendHandler exampleServer exampleEnv (examplePost "/v1/topics/logs" [] (.json .null))
        [("queue", ["logs"])]).posts.map (fun q => q.url)
      = ["http://backend/v1/topics/logs/3", "http://backend/v1/topics/logs/3"] := by
  decide

/-- C4 (amended). For a request with a known topic whose body is not valid JSON,
or is a JSON array, string, number or boolean, the send handler writes one 400
error response with message "Message must be JSON" and sends nothing to the
backend. -/
theorem non_object_body_rejected (s : Server) (env : Env) (r : Request) (p : Values)
    (body : BodyContent) (val : ConfigQueue)
    (hbody : r.Body = .ok body) (htopic : Values.Get p "queue" ≠ "")
    (hcfg : s.Cfg.Queue.lookup (Values.Get p "queue") = some val)
    (hnot : body = .invalid ∨ ∃ v, body = .json v ∧ v ≠ .null ∧ ∀ kvs, v ≠ .object kvs) :
    (sendHandler s env r p).posts = []
    ∧ (sendHandler s env r p).writes
        = [{ Status := 400, ContentType := some "application/json",
             Body := RespBody.json (JSONResponse.mk "error"
               (JSONData.err (JSONErrorData.mk 400 (ErrText.text "Message must be JSON")))) }]
    ∧ (sendHandler s env r p).exit = .returned := by
  have hnone : jsonUnmarshalMap body = none := by
    rcases hnot with h | ⟨v, h, hnull, hobj⟩
    · rw [h]; rfl
    · rw [h]
      cases v with
      | null => exact absurd rfl hnull
      | object kvs => exact absurd rfl (hobj kvs)
      | bool b => rfl
      | number l => rfl
      | string t => rfl
      | array xs => rfl
  have h : sendHandler s env r p
      = respond (errorResponse 400 (.text "Message must be JSON")) := by
    simp only [sendHandler, hbody, htopic, hcfg, hnone, if_false]
  rw [h]
  exact ⟨rfl, rfl, rfl⟩

/-- C4 (amended) at topic `clicks` with the body `[1]`. -/
theorem non_object_body_rejected_witness :
    (sendHandler exampleServer exampleEnv
        (examplePost "/v1/topics/clicks" [] (.json (.array [.number "1"])))
        [("queue", ["clicks"])]).posts = []
    ∧ (sendHandler exampleServer exampleEnv
        (examplePost "/v1/topics/clicks" [] (.json (.array [.number "1"])))
        [("queue", ["clicks"])]).writes
      = [{ Status := 400, ContentType := some "application/json",
           Body := RespBody.json (JSONResponse.mk "error"
             (JSONData.err (JSONErrorData.mk 400 (ErrText.text "Message must be JSON")))) }]
    ∧ (sendHandler exampleServer exampleEnv
        (examplePost "/v1/topics/clicks" [] (.json (.array [.number "1"])))
        [("queue", ["clicks"])]).exit = .returned :=
  non_object_body_rejected exampleServer exampleEnv
    (examplePost "/v1/topics/clicks" [] (.json (.array [.number "1"]))) [("queue", ["clicks"])]
    (.json (.array [.number "1"])) { Partitions := 4, Balance := "key", Key := ["user_id"] }
    rfl (by decide) rfl
    (Or.inr ⟨_, rfl, (by intro h; cases h), (by intro kvs h; cases h)⟩)

/-- C9. For a request whose body was read: if the resolved topic name is empty
the send handler writes one 400 error response with message "Topic missing";
if it is not empty and not a key of the topic map, one 400 error response with
message "Unknown topic". Both hold for every body, valid JSON or not, and in
both cases nothing is sent to the backend. -/
theorem topic_checks (s : Server) (env : Env) (r : Request) (p : Values) (body : BodyContent)
    (hbody : r.Body = .ok body) :
    (Values.Get p "queue" = "" →
      sendHandler s env r p =
        { posts := [], exit := .returned,
          writes := [{ Status := 400, ContentType := some "application/json",
                       Body := RespBody.json (JSONResponse.mk "error"
                         (JSONData.err (JSONErrorData.mk 400 (ErrText.text "Topic missing")))) }] })
    ∧ (Values.Get p "queue" ≠ "" → s.Cfg.Queue.lookup (Values.Get p "queue") = none →
      sendHandler s env r p =
        { posts := [], exit := .returned,
          writes := [{ Status := 400, ContentType := some "application/json",
                       Body := RespBody.json (JSONResponse.mk "error"
                         (JSONData.err (JSONErrorData.mk 400 (ErrText.text "Unknown topic")))) }] }) := by
  constructor
  · intro h
    simp only [sendHandler, hbody, h, if_true]
    rfl
  · intro h hnone
    simp only [sendHandler, hbody, h, hnone, if_false]
    rfl

/-- C9 at an unknown topic with a body that is not JSON, and at a missing topic. -/
theorem topic_checks_witness :
    sendHandler exampleServer exampleEnv (examplePost "/v1/topics/nosuch" [] .invalid)
        [("queue", ["nosuch"])]
      = respond (errorResponse 400 (.text "Unknown topic"))
    ∧ sendHandler exampleServer exampleEnv (examplePost "/v1/topics" [] .invalid) []
      = respond (errorResponse 400 (.text "Topic missing")) :=
  ⟨(topic_checks exampleServer exampleEnv (examplePost "/v1/topics/nosuch" [] .invalid)
      [("queue", ["nosuch"])] .invalid rfl).2 (by decide) rfl,
   (topic_checks exampleServer exampleEnv (examplePost "/v1/topics" [] .invalid)
      [] .invalid rfl).1 rfl⟩

set_option maxRecDepth 100000 in
/-- C6 (counterexample). POST of the example message to `/v1/topics/clicks`,
no transport failure before the first completed exchange, which answers 307
with a `Location`. The client follows the redirect inside `client.Post`: a
second POST goes to the other address, so two POSTs are sent, to two URLs.
When the exchange at the other address fails, `client.Post` returns an error
and the loop sends the POST again, after an exchange that had completed. -/
theorem redirect_counterexample :
    (sendHandler exampleServer redirectEnv (examplePost "/v1/topics/clicks" [] (.json clickMessage))
        [("queue", ["clicks"])]).posts.map (fun q => (q.method, q.url))
      = [("POST", "http://backend/v1/topics/clicks/2"),
         ("POST", "http://other/v1/topics/clicks/2")]
    ∧ (sendHandler exampleServer brokenRedirectEnv
        (examplePost "/v1/topics/clicks" [] (.json clickMessage))
        [("queue", ["clicks"])]).posts.map (fun q => (q.method, q.url))
      = [("POST", "http://backend/v1/topics/clicks/2"),
         ("POST", "http://other/v1/topics/clicks/2"),
         ("POST", "http://backend/v1/topics/clicks/2")] := by
  decide

/-- C6 (amended). On a request that passes every check (body read, topic known,
body decoded, partition selected, client address extracted), when the first
`n` backend exchanges fail at the transport level and the next completes with
a status that is not a redirect status (not 301, 302, 303, 307 or 308; any
4xx or 5xx is allowed): the send handler issues exactly `n + 1` POSTs, each to
`{backend}/v1/topics/{topic}/{partition}` with the same envelope, then returns
having written exactly one response, 200 with status "success" and data "OK".
While only transport failures have happened, after `n` POSTs, no response has
been written at all. -/
theorem sendHandler_retries (s : Server) (env : Env) (r : Request) (p : Values)
    (body : BodyContent) (val : ConfigQueue) (m : GoMap) (partition_ : Nat) (remoteip : String)
    (n : Nat)
    (hbody : r.Body = .ok body) (htopic : Values.Get p "queue" ≠ "")
    (hcfg : s.Cfg.Queue.lookup (Values.Get p "queue") = some val)
    (hjson : jsonUnmarshalMap body = some m)
    (hsel : getPartition env.rnd val.Balance val.Partitions val.Key m = .ok partition_)
    (haddr : r.RemoteHost = .ok remoteip) :
    (∀ (status : Nat) (location : Option String) (later : List Attempt),
      status ≠ 301 ∧ status ≠ 302 ∧ status ≠ 303 ∧ status ≠ 307 ∧ status ≠ 308 →
      env.backend = List.replicate n .transportError ++ .completed status location :: later →
      (sendHandler s env r p).posts
          = List.replicate (n + 1)
              (Post.post
                (s.Cfg.Kafka.API ++ "/v1/topics/" ++ Values.Get p "queue" ++ "/"
                  ++ toString partition_)
                "application/json"
                { ID := env.uuid, Accepted := env.now,
                  Sender := { IP := remoteip, Project := "", Cluster := "" },
                  Data := m })
      ∧ (sendHandler s env r p).writes
          = [{ Status := 200, ContentType := some "application/json",
               Body := RespBody.json (JSONResponse.mk "success" (JSONData.str "OK")) }]
      ∧ (sendHandler s env r p).exit = .returned)
    ∧ (env.backend = List.replicate n .transportError →
      (sendHandler s env r p).posts.length = n
      ∧ (sendHandler s env r p).writes = []
      ∧ (sendHandler s env r p).exit = .retrying) := by
  have hs := sendHandler_selected s env r p body val m hbody htopic hcfg hjson
  rw [hsel, haddr] at hs
  constructor
  · intro status location later hstatus hb
    rw [hs, hb]
    simp [postLoop_completed _ _ _ _ _ _ hstatus, successResponse, writeResponse]
  · intro hb
    rw [hs, hb]
    simp [postLoop_failing]

set_option maxRecDepth 100000 in
/-- C6 (amended) at the spec's scenario: POST of `{"user_id":"42","event":"click"}`
to `/v1/topics/clicks`, the first backend attempt fails, the second completes
(with status 500). -/
theorem sendHandler_retries_witness :
    (sendHandler exampleServer exampleEnv (examplePost "/v1/topics/clicks" [] (.json clickMessage))
        [("queue", ["clicks"])]).posts.map (fun q => q.url)
      = ["http://backend/v1/topics/clicks/2", "http://backend/v1/topics/clicks/2"]
    ∧ (sendHandler exampleServer exampleEnv (examplePost "/v1/topics/clicks" [] (.json clickMessage))
        [("queue", ["clicks"])]).writes
      = [{ Status := 200, ContentType := some "application/json",
           Body := RespBody.json (JSONResponse.mk "success" (JSONData.str "OK")) }] := by
  have h := (sendHandler_retries exampleServer exampleEnv
    (examplePost "/v1/topics/clicks" [] (.json clickMessage)) [("queue", ["clicks"])]
    (.json clickMessage) { Partitions := 4, Balance := "key", Key := ["user_id"] }
    [("user_id", .string "42"), ("event", .string "click")] 2 "192.0.2.7" 1
    rfl (by decide) rfl rfl (by decide) rfl).1 500 none [] (by decide) rfl
  exact ⟨by rw [h.1]; rfl, h.2.1⟩

/-- The routing loop over any table: the first binding whose pattern matches
the path decides; without a match, `notFoundHandler` is invoked. -/
theorem route_first_match (s : Server) (cl : ConnTrack) (req : Request) (p : Values)
    (table : List httpHandler) :
    route s cl req p table =
      match table.find? (fun a => (a.Regexp.FindStringSubmatch req.Path).isSome) with
      | none => .invoke .notFoundHandler p
      | some a =>
        bindingDecision s cl req p a ((a.Regexp.FindStringSubmatch req.Path).getD []) := by
  induction table with
  | nil => rfl
  | cons a rest ih =>
    cases h : a.Regexp.FindStringSubmatch req.Path with
    | none => simp [route, h, ih, List.find?]
    | some sub =>
      simp only [route, h, List.find?, bindingDecision, Option.isSome, Option.getD]
      split_ifs <;> rfl

theorem dropLiteral_append (l r : List Char) : dropLiteral l (l ++ r) = some r := by
  induction l with
  | nil => cases r <;> rfl
  | cons a as ih => simp [dropLiteral, ih]

theorem getLast?_ne_slash (seg : List Char) (hall : seg.all isQueueChar = true) :
    seg.getLast? ≠ some '/' := by
  intro h
  have hmem : '/' ∈ seg := List.mem_of_getLast?_eq_some h
  have := List.all_eq_true.1 hall '/' hmem
  revert this
  decide

/-- The first pattern on `/v1/topics/{seg}` and `/v1/topics/{seg}/`: the capture
is the segment. -/
theorem topicsQueue_match (seg : String) (hne : seg.toList ≠ [])
    (hall : seg.toList.all isQueueChar = true) :
    Pattern.topicsQueue.FindStringSubmatch ("/v1/topics/" ++ seg)
        = some ["/v1/topics/" ++ seg, seg]
    ∧ Pattern.topicsQueue.FindStringSubmatch ("/v1/topics/" ++ seg ++ "/")
        = some ["/v1/topics/" ++ seg ++ "/", seg] := by
  constructor
  · have h1 : ("/v1/topics/" ++ seg).toList = "/v1/topics/".toList ++ seg.toList := by
      simp [String.toList]
    have h2 := getLast?_ne_slash seg.toList hall
    simp only [Pattern.FindStringSubmatch, h1, dropLiteral_append]
    simp only [String.toList] at hne hall h2
    simp [h2, hne]
    exact List.all_eq_true.1 hall
  · have h1 : ("/v1/topics/" ++ seg ++ "/").toList
        = "/v1/topics/".toList ++ (seg.toList ++ ['/']) := by
      simp [String.toList]
    simp only [Pattern.FindStringSubmatch, h1, dropLiteral_append]
    simp only [String.toList] at hne hall
    simp [hne]
    exact List.all_eq_true.1 hall

theorem ping_match_iff (path : String) :
    (Pattern.ping.FindStringSubmatch path).isSome = true ↔ path = "/ping" := by
  by_cases h : path = "/ping" <;> simp [Pattern.FindStringSubmatch, h]

theorem root_match_iff (path : String) :
    (Pattern.root.FindStringSubmatch path).isSome = true ↔ path = "/" := by
  by_cases h : path = "/" <;> simp [Pattern.FindStringSubmatch, h]

theorem topics_match_iff (path : String) :
    (Pattern.topics.FindStringSubmatch path).isSome = true
      ↔ (path = "/v1/topics" ∨ path = "/v1/topics/") := by
  by_cases h : path = "/v1/topics" ∨ path = "/v1/topics/" <;>
    simp [Pattern.FindStringSubmatch, h]

/-- The routing loop over the table `handlers`, pattern by pattern. -/
theorem route_handlers (s : Server) (cl : ConnTrack) (req : Request) (p : Values) :
    route s cl req p handlers =
      match Pattern.topicsQueue.FindStringSubmatch req.Path with
      | some sub =>
        bindingDecision s cl req p ⟨true, .topicsQueue, .notAllowedHandler, .sendHandler⟩ sub
      | none =>
        match Pattern.topics.FindStringSubmatch req.Path with
        | some sub =>
          bindingDecision s cl req p ⟨true, .topics, .notAllowedHandler, .sendHandler⟩ sub
        | none =>
          match Pattern.ping.FindStringSubmatch req.Path with
          | some sub =>
            bindingDecision s cl req p ⟨false, .ping, .pingHandler, .notAllowedHandler⟩ sub
          | none =>
            match Pattern.root.FindStringSubmatch req.Path with
            | some sub =>
              bindingDecision s cl req p ⟨false, .root, .rootHandler, .notAllowedHandler⟩ sub
            | none => .invoke .notFoundHandler p := by
  rw [route_first_match]
  cases h1 : Pattern.topicsQueue.FindStringSubmatch req.Path <;>
  cases h2 : Pattern.topics.FindStringSubmatch req.Path <;>
  cases h3 : Pattern.ping.FindStringSubmatch req.Path <;>
  cases h4 : Pattern.root.FindStringSubmatch req.Path <;>
  simp [handlers, List.find?, h1, h2, h3, h4]

/-- A request the router does not answer 503 is given to the handler of the
route table. -/
theorem route_table (s : Server) (cl : ConnTrack) (req : Request) (p : Values)
    (h : route s cl req p handlers ≠ .tooManyConnections) :
    ∃ q, route s cl req p handlers = .invoke (routeTable req.Path req.Method) q := by
  rw [route_handlers] at h ⊢
  have hp := ping_match_iff req.Path
  have hr := root_match_iff req.Path
  unfold routeTable
  cases h1 : Pattern.topicsQueue.FindStringSubmatch req.Path <;>
  cases h2 : Pattern.topics.FindStringSubmatch req.Path <;>
  cases h3 : Pattern.ping.FindStringSubmatch req.Path <;>
  cases h4 : Pattern.root.FindStringSubmatch req.Path <;>
  simp only [h1, h2, h3, h4, bindingDecision] at h hp hr ⊢ <;>
  simp at hp hr <;>
  simp [hp, hr] <;>
  split_ifs at h ⊢ <;> simp_all

theorem wrapInt64_of_range (x : Int) (hlo : -2 ^ 63 ≤ x) (hhi : x < 2 ^ 63) :
    wrapInt64 x = x := by
  unfold wrapInt64
  rw [Int.emod_eq_of_lt (by omega) (by omega)]
  omega

/-- A request on an admission-controlled path with the ceiling reached. -/
theorem route_rejects (s : Server) (cl : ConnTrack) (req : Request) (p : Values)
    (hpath : (Pattern.topicsQueue.FindStringSubmatch req.Path).isSome = true
      ∨ (Pattern.topics.FindStringSubmatch req.Path).isSome = true)
    (hmax : 0 < s.Cfg.Global.MaxConns) (hcount : cl.Conns ≥ s.Cfg.Global.MaxConns) :
    route s cl req p handlers = .tooManyConnections := by
  rw [route_handlers]
  cases h1 : Pattern.topicsQueue.FindStringSubmatch req.Path with
  | some sub => simp [bindingDecision, hmax, hcount]
  | none =>
    cases h2 : Pattern.topics.FindStringSubmatch req.Path with
    | some sub => simp [bindingDecision, hmax, hcount]
    | none => simp [h1, h2] at hpath

/-- A request to `/ping` or `/` is never answered by the router itself. -/
theorem route_open_paths (s : Server) (cl : ConnTrack) (req : Request) (p : Values)
    (hpath : req.Path = "/ping" ∨ req.Path = "/") :
    route s cl req p handlers ≠ .tooManyConnections := by
  have e1 : Pattern.topicsQueue.FindStringSubmatch "/ping" = none := by decide
  have e2 : Pattern.topicsQueue.FindStringSubmatch "/" = none := by decide
  have e3 : Pattern.topics.FindStringSubmatch "/ping" = none := by decide
  have e4 : Pattern.topics.FindStringSubmatch "/" = none := by decide
  have e5 : Pattern.ping.FindStringSubmatch "/ping" = some ["/ping"] := by decide
  have e6 : Pattern.ping.FindStringSubmatch "/" = none := by decide
  have e7 : Pattern.root.FindStringSubmatch "/" = some ["/"] := by decide
  rw [route_handlers]
  rcases hpath with h | h <;> simp [h, e1, e2, e3, e4, e5, e6, e7, bindingDecision]

theorem routeTable_open_paths (method : String) :
    routeTable "/ping" method = (if method = "GET" then .pingHandler else .notAllowedHandler)
    ∧ routeTable "/" method = (if method = "GET" then .rootHandler else .notAllowedHandler) := by
  have e1 : Pattern.topicsQueue.FindStringSubmatch "/ping" = none := by decide
  have e2 : Pattern.topicsQueue.FindStringSubmatch "/" = none := by decide
  have e3 : Pattern.topics.FindStringSubmatch "/ping" = none := by decide
  have e4 : Pattern.topics.FindStringSubmatch "/" = none := by decide
  constructor <;> simp [routeTable, e1, e2, e3, e4]

/-- The closure invokes what the routing loop decides. -/
theorem ServeHTTP_invoke (s : Server) (env : Env) (req : Request) (h : Handler) (q : Values)
    (hr : route (newConnTrack s).2 (newConnTrack s).1 req req.Query handlers = .invoke h q) :
    (ServeHTTP s env req).calls = [(h, q)]
    ∧ (ServeHTTP s env req).trace = h.run (newConnTrack s).2 env req q := by
  simp [ServeHTTP, hr]

theorem ServeHTTP_reject (s : Server) (env : Env) (req : Request)
    (hr : route (newConnTrack s).2 (newConnTrack s).1 req req.Query handlers
      = .tooManyConnections) :
    (ServeHTTP s env req).calls = []
    ∧ (ServeHTTP s env req).trace = respond (errorResponse 503 (.text "Too many connections")) := by
  simp [ServeHTTP, hr]

/-- C5. For a request whose path matches one of the two `/v1/topics` patterns:
if `MaxConns` is positive and the count returned by `newConnTrack` for this
request is at least `MaxConns`, then whatever the method no handler is invoked
and the one response written is the 503 error "Too many connections"; in
particular so when `MaxConns = k` and `k` requests are in flight (`k` below the
largest `int64`). A request to `/ping` or `/` is never answered 503, whatever
the ceiling and the count. -/
theorem admission_control (s : Server) (env : Env) (req : Request) :
    (((Pattern.topicsQueue.FindStringSubmatch req.Path).isSome = true
        ∨ (Pattern.topics.FindStringSubmatch req.Path).isSome = true) →
      0 < s.Cfg.Global.MaxConns →
      ((newConnTrack s).1.Conns ≥ s.Cfg.Global.MaxConns
        ∨ (s.connsCount = s.Cfg.Global.MaxConns ∧ s.Cfg.Global.MaxConns + 1 < 2 ^ 63)) →
      (ServeHTTP s env req).calls = []
      ∧ (ServeHTTP s env req).trace.posts = []
      ∧ (ServeHTTP s env req).trace.writes
          = [{ Status := 503, ContentType := some "application/json",
               Body := RespBody.json (JSONResponse.mk "error"
                 (JSONData.err (JSONErrorData.mk 503 (ErrText.text "Too many connections")))) }])
    ∧ ((req.Path = "/ping" ∨ req.Path = "/") →
      ∀ w ∈ (ServeHTTP s env req).trace.writes, w.Status ≠ 503) := by
  constructor
  · intro hpath hmax hcount
    have hc : (newConnTrack s).1.Conns ≥ (newConnTrack s).2.Cfg.Global.MaxConns := by
      rcases hcount with h | ⟨h1, h2⟩
      · exact h
      · show atomicAddInt64 s.connsCount 1 ≥ s.Cfg.Global.MaxConns
        unfold atomicAddInt64
        rw [wrapInt64_of_range _ (by omega) (by omega)]
        omega
    have hr := route_rejects (newConnTrack s).2 (newConnTrack s).1 req req.Query hpath hmax hc
    obtain ⟨h1, h2⟩ := ServeHTTP_reject s env req hr
    rw [h1, h2]
    exact ⟨rfl, rfl, rfl⟩
  · intro hpath w hw
    have hne := route_open_paths (newConnTrack s).2 (newConnTrack s).1 req req.Query hpath
    obtain ⟨q, hq⟩ := route_table _ _ _ _ hne
    rw [(ServeHTTP_invoke s env req _ q hq).2] at hw
    rcases hpath with h | h
    · rw [h, (routeTable_open_paths req.Method).1] at hw
      split_ifs at hw <;>
        simp [Handler.run, pingHandler, notAllowedHandler, respond, errorResponse,
          writeResponse] at hw <;>
        simp [hw]
    · rw [h, (routeTable_open_paths req.Method).2] at hw
      split_ifs at hw <;>
        simp [Handler.run, rootHandler, notAllowedHandler, respond, errorResponse,
          writeResponse] at hw <;>
        simp [hw]

/-- C5 at ceiling 2 with two requests in flight: a POST to `/v1/topics/clicks`
is answered 503 and no handler runs. -/
theorem admission_control_witness :
    (ServeHTTP busyServer exampleEnv
        (examplePost "/v1/topics/clicks" [] (.json clickMessage))).calls = []
    ∧ (ServeHTTP busyServer exampleEnv
        (examplePost "/v1/topics/clicks" [] (.json clickMessage))).trace.posts = []
    ∧ (ServeHTTP busyServer exampleEnv
        (examplePost "/v1/topics/clicks" [] (.json clickMessage))).trace.writes
      = [{ Status := 503, ContentType := some "application/json",
           Body := RespBody.json (JSONResponse.mk "error"
             (JSONData.err (JSONErrorData.mk 503 (ErrText.text "Too many connections")))) }] :=
  (admission_control busyServer exampleEnv
    (examplePost "/v1/topics/clicks" [] (.json clickMessage))).1
    (Or.inl (by decide)) (by decide) (Or.inr ⟨rfl, by decide⟩)

theorem get_setCaptures_queue (p : Values) (whole seg : String) :
    Values.Get (setCaptures p (Pattern.SubexpNames .topicsQueue) [whole, seg]) "queue" = seg := by
  simp [setCaptures, Pattern.SubexpNames, Values.Set, Values.Get, List.lookup]

/-- C7. For a POST that admission control lets through: when the path is
`/v1/topics/{seg}` or `/v1/topics/{seg}/`, the send handler is invoked with
parameters whose `queue` is the path segment `seg`, whatever the query string
holds (a `queue` value in the query is replaced); when the path is `/v1/topics`
or `/v1/topics/`, the send handler is invoked with the query parameters
themselves, so `queue` reads as the first value of the query parameter `queue`
(and as empty when there is none). The path `/v1/topics/` is not matched by
the first pattern, and is matched by the second. -/
theorem topic_resolution (s : Server) (cl : ConnTrack) (req : Request)
    (hadm : ¬ (0 < s.Cfg.Global.MaxConns ∧ cl.Conns ≥ s.Cfg.Global.MaxConns))
    (hpost : req.Method = "POST") :
    (∀ seg : String, seg.toList ≠ [] → seg.toList.all isQueueChar = true →
      (req.Path = "/v1/topics/" ++ seg ∨ req.Path = "/v1/topics/" ++ seg ++ "/") →
      ∃ q, route s cl req req.Query handlers = .invoke .sendHandler q
        ∧ Values.Get q "queue" = seg)
    ∧ ((req.Path = "/v1/topics" ∨ req.Path = "/v1/topics/") →
      route s cl req req.Query handlers = .invoke .sendHandler req.Query
      ∧ (∀ x rest, req.Query.lookup "queue" = some (x :: rest) →
          Values.Get req.Query "queue" = x)
      ∧ ((req.Query.lookup "queue" = none ∨ req.Query.lookup "queue" = some []) →
          Values.Get req.Query "queue" = ""))
    ∧ (Pattern.topicsQueue.FindStringSubmatch "/v1/topics/" = none
      ∧ Pattern.topics.FindStringSubmatch "/v1/topics/" = some ["/v1/topics/"]
      ∧ matchedBinding "/v1/topics/"
          = some ⟨true, .topics, .notAllowedHandler, .sendHandler⟩) := by
  have hget : "POST" ≠ "GET" := by decide
  refine ⟨?_, ?_, by decide, by decide, by decide⟩
  · intro seg hne hall hpath
    obtain ⟨m1, m2⟩ := topicsQueue_match seg hne hall
    rw [route_handlers]
    rcases hpath with h | h
    · rw [h, m1]
      refine ⟨_, ?_, get_setCaptures_queue req.Query ("/v1/topics/" ++ seg) seg⟩
      simp only [bindingDecision, hpost]
      rw [if_neg (by intro hc; exact hadm hc.2)]
      simp [hget]
    · rw [h, m2]
      refine ⟨_, ?_, get_setCaptures_queue req.Query ("/v1/topics/" ++ seg ++ "/") seg⟩
      simp only [bindingDecision, hpost]
      rw [if_neg (by intro hc; exact hadm hc.2)]
      simp [hget]
  · intro hpath
    have e1 : Pattern.topicsQueue.FindStringSubmatch "/v1/topics" = none := by decide
    have e2 : Pattern.topicsQueue.FindStringSubmatch "/v1/topics/" = none := by decide
    have e3 : Pattern.topics.FindStringSubmatch "/v1/topics" = some ["/v1/topics"] := by decide
    have e4 : Pattern.topics.FindStringSubmatch "/v1/topics/" = some ["/v1/topics/"] := by
      decide
    refine ⟨?_, ?_, ?_⟩
    · rw [route_handlers]
      rcases hpath with h | h
      · rw [h, e1, e3]
        simp only [bindingDecision, hpost]
        rw [if_neg (by intro hc; exact hadm hc.2)]
        simp [hget, setCaptures, Pattern.SubexpNames]
      · rw [h, e2, e4]
        simp only [bindingDecision, hpost]
        rw [if_neg (by intro hc; exact hadm hc.2)]
        simp [hget, setCaptures, Pattern.SubexpNames]
    · intro x rest hq
      simp [Values.Get, hq]
    · intro hq
      rcases hq with hq | hq <;> simp [Values.Get, hq]

/-- C7 at `/v1/topics/clicks?queue=other` and at `/v1/topics/?queue=foo`. -/
theorem topic_resolution_witness :
    (∃ q, route exampleServer ⟨1, 1⟩
        (examplePost "/v1/topics/clicks" [("queue", ["other"])] (.json clickMessage))
        [("queue", ["other"])] handlers = .invoke .sendHandler q
      ∧ Values.Get q "queue" = "clicks")
    ∧ (ServeHTTP exampleServer exampleEnv
        (examplePost "/v1/topics/" [("queue", ["foo"])] (.json clickMessage))).calls
      = [(.sendHandler, [("queue", ["foo"])])] :=
  ⟨(topic_resolution exampleServer ⟨1, 1⟩
      (examplePost "/v1/topics/clicks" [("queue", ["other"])] (.json clickMessage))
      (by decide) rfl).1 "clicks" (by decide) (by decide) (Or.inl (by decide)),
   by decide⟩

theorem matchedBinding_none_iff (path : String) :
    matchedBinding path = none ↔
      (Pattern.topicsQueue.FindStringSubmatch path = none
        ∧ Pattern.topics.FindStringSubmatch path = none
        ∧ path ≠ "/ping" ∧ path ≠ "/") := by
  have hp := ping_match_iff path
  have hr := root_match_iff path
  cases h1 : Pattern.topicsQueue.FindStringSubmatch path <;>
  cases h2 : Pattern.topics.FindStringSubmatch path <;>
  cases h3 : Pattern.ping.FindStringSubmatch path <;>
  cases h4 : Pattern.root.FindStringSubmatch path <;>
  simp [matchedBinding, handlers, List.find?, h1, h2, h3, h4] at hp hr ⊢ <;>
  simp [hp, hr]

theorem routeTable_none (path method : String) (h : matchedBinding path = none) :
    routeTable path method = .notFoundHandler := by
  obtain ⟨h1, h2, h3, h4⟩ := (matchedBinding_none_iff path).1 h
  simp [routeTable, h1, h2, h3, h4]

theorem routeTable_other_method (path method : String) (h : matchedBinding path ≠ none)
    (hget : method ≠ "GET") (hpost : method ≠ "POST") :
    routeTable path method = .notAllowedHandler := by
  have hn := (matchedBinding_none_iff path).not.1 h
  unfold routeTable
  split_ifs with a b c
  · rfl
  · rfl
  · rfl
  · exfalso
    apply hn
    simp only [not_or, Bool.not_eq_true, Option.not_isSome, Option.isNone_iff_eq_none] at a
    exact ⟨a.1, a.2, b, c⟩

theorem routeTable_topics (path method : String)
    (h : (Pattern.topicsQueue.FindStringSubmatch path).isSome = true
      ∨ (Pattern.topics.FindStringSubmatch path).isSome = true) :
    routeTable path method = (if method = "POST" then .sendHandler else .notAllowedHandler) := by
  simp [routeTable, h]

/-- The router closure on a request it receives: the routing loop does what
the first matching binding says, and a request it does not answer 503 gets the
handler of the route table. -/
theorem closure_follows_table (s : Server) (env : Env) (req : Request) :
    (route (newConnTrack s).2 (newConnTrack s).1 req req.Query handlers
        ≠ .tooManyConnections →
    (route (newConnTrack s).2 (newConnTrack s).1 req req.Query handlers =
      match matchedBinding req.Path with
      | none => .invoke .notFoundHandler req.Query
      | some a =>
        bindingDecision (newConnTrack s).2 (newConnTrack s).1 req req.Query a
          ((a.Regexp.FindStringSubmatch req.Path).getD []))
    ∧ (∃ q, (ServeHTTP s env req).calls = [(routeTable req.Path req.Method, q)]
        ∧ (ServeHTTP s env req).trace
            = (routeTable req.Path req.Method).run (newConnTrack s).2 env req q)
    ∧ (matchedBinding req.Path = none →
        (ServeHTTP s env req).trace = respond (errorResponse 404 (.text "404 page not found")))
    ∧ (matchedBinding req.Path ≠ none → req.Method ≠ "GET" → req.Method ≠ "POST" →
        (ServeHTTP s env req).trace
          = respond (errorResponse 405 (.text "405 Method Not Allowed")))
    ∧ (((Pattern.topicsQueue.FindStringSubmatch req.Path).isSome = true
          ∨ (Pattern.topics.FindStringSubmatch req.Path).isSome = true) →
        (req.Method = "POST" →
          ∃ q, (ServeHTTP s env req).calls = [(.sendHandler, q)]
            ∧ (ServeHTTP s env req).trace = sendHandler (newConnTrack s).2 env req q)
        ∧ (req.Method = "GET" →
          (ServeHTTP s env req).trace
            = respond (errorResponse 405 (.text "405 Method Not Allowed"))))
    ∧ (req.Path = "/ping" →
        (req.Method = "GET" →
          (ServeHTTP s env req).trace
            = respond { Status := 200, ContentType := none, Body := .empty })
        ∧ (req.Method = "POST" →
          (ServeHTTP s env req).trace
            = respond (errorResponse 405 (.text "405 Method Not Allowed"))))
    ∧ (req.Path = "/" →
        (req.Method = "GET" →
          (ServeHTTP s env req).trace
            = respond { Status := 200, ContentType := some "text/html; charset=utf-8",
                        Body := .html })
        ∧ (req.Method = "POST" →
          (ServeHTTP s env req).trace
            = respond (errorResponse 405 (.text "405 Method Not Allowed"))))
    ∧ (ServeHTTP s env req).calls.length = 1)
    ∧ (ServeHTTP s env req).calls.length ≤ 1 := by
  refine ⟨fun hadm => ?_, ?_⟩
  swap
  · cases h : route (newConnTrack s).2 (newConnTrack s).1 req req.Query handlers with
    | tooManyConnections => simp [ServeHTTP, h]
    | invoke hd q => simp [ServeHTTP, h]
  obtain ⟨q, hq⟩ := route_table _ _ _ _ hadm
  obtain ⟨hcalls, htrace⟩ := ServeHTTP_invoke s env req _ q hq
  have hpg : "POST" ≠ "GET" := by decide
  refine ⟨route_first_match _ _ _ _ handlers, ⟨q, hcalls, htrace⟩, ?_, ?_, ?_, ?_, ?_, ?_⟩
  · intro hnone
    rw [htrace, routeTable_none _ _ hnone]
    rfl
  · intro hsome hget hpost
    rw [htrace, routeTable_other_method _ _ hsome hget hpost]
    rfl
  · intro hpath
    constructor
    · intro hpost
      refine ⟨q, ?_, ?_⟩
      · rw [hcalls, routeTable_topics _ _ hpath, if_pos hpost]
      · rw [htrace, routeTable_topics _ _ hpath, if_pos hpost]
        rfl
    · intro hget
      rw [htrace, routeTable_topics _ _ hpath, if_neg (by rw [hget]; decide)]
      rfl
  · intro hpath
    constructor
    · intro hget
      rw [htrace, hpath, (routeTable_open_paths req.Method).1, if_pos hget]
      rfl
    · intro hpost
      rw [htrace, hpath, (routeTable_open_paths req.Method).1, if_neg (by rw [hpost]; decide)]
      rfl
  · intro hpath
    constructor
    · intro hget
      rw [htrace, hpath, (routeTable_open_paths req.Method).2, if_pos hget]
      rfl
    · intro hpost
      rw [htrace, hpath, (routeTable_open_paths req.Method).2, if_neg (by rw [hpost]; decide)]
      rfl
  · rw [hcalls]
    rfl

/-- C8 (counterexample). No pattern of the table matches `/debug/pprof/`, yet a
GET of it is not answered with the 404 error: the mux of `Server.Run` gives it
to `http.DefaultServeMux` and the router closure never runs. Likewise a POST
to `/v1/topics/clicks//` is answered by the mux with a redirect to the clean
path. -/
theorem mux_counterexample :
    matchedBinding "/debug/pprof/" = none
    ∧ Run exampleServer exampleEnv
        { Method := "GET", Path := "/debug/pprof/", Query := [], Body := .ok .invalid,
          RemoteHost := .ok "192.0.2.7" } = .defaultServeMux
    ∧ matchedBinding "/v1/topics/clicks//" = none
    ∧ Run exampleServer exampleEnv (examplePost "/v1/topics/clicks//" [] (.json clickMessage))
        = .redirected "/v1/topics/clicks/" := by
  have h1 : muxHandler "GET" "/debug/pprof/" = .handler .defaultServeMux := by decide
  have h2 : muxHandler "POST" "/v1/topics/clicks//" = .redirect "/v1/topics/clicks/" := by
    decide
  refine ⟨by decide, ?_, by decide, ?_⟩
  · simp only [Run, h1]
  · simp only [Run, examplePost, h2]

/-- C8 (amended). For every request that the mux of `Server.Run` gives to the
router closure (its path is clean and is not `/debug/vars`, `/debug/pprof` or
below `/debug/pprof/`), when the router does not answer 503: the routing loop
does what the first binding of the table whose pattern matches says, and the
one handler invoked is the one of the route table. Without a match the
response is the 404 error; with a match and a method other than GET and POST
it is the 405 error; on the two `/v1/topics` patterns POST runs the send
handler and GET gives 405; GET `/ping` gives 200 without a body, GET `/` gives
the HTML page, POST on `/ping` or `/` gives 405. Exactly one handler is
invoked for such a request, and at most one for any request given to the
closure. -/
theorem router_follows_table (s : Server) (env : Env) (req : Request)
    (hmux : muxHandler req.Method req.Path = .handler .router) :
    Run s env req = .served (ServeHTTP s env req)
    ∧ (route (newConnTrack s).2 (newConnTrack s).1 req req.Query handlers
        ≠ .tooManyConnections →
    (route (newConnTrack s).2 (newConnTrack s).1 req req.Query handlers =
      match matchedBinding req.Path with
      | none => .invoke .notFoundHandler req.Query
      | some a =>
        bindingDecision (newConnTrack s).2 (newConnTrack s).1 req req.Query a
          ((a.Regexp.FindStringSubmatch req.Path).getD []))
    ∧ (∃ q, (ServeHTTP s env req).calls = [(routeTable req.Path req.Method, q)]
        ∧ (ServeHTTP s env req).trace
            = (routeTable req.Path req.Method).run (newConnTrack s).2 env req q)
    ∧ (matchedBinding req.Path = none →
        (ServeHTTP s env req).trace = respond (errorResponse 404 (.text "404 page not found")))
    ∧ (matchedBinding req.Path ≠ none → req.Method ≠ "GET" → req.Method ≠ "POST" →
        (ServeHTTP s env req).trace
          = respond (errorResponse 405 (.text "405 Method Not Allowed")))
    ∧ (((Pattern.topicsQueue.FindStringSubmatch req.Path).isSome = true
          ∨ (Pattern.topics.FindStringSubmatch req.Path).isSome = true) →
        (req.Method = "POST" →
          ∃ q, (ServeHTTP s env req).calls = [(.sendHandler, q)]
            ∧ (ServeHTTP s env req).trace = sendHandler (newConnTrack s).2 env req q)
        ∧ (req.Method = "GET" →
          (ServeHTTP s env req).trace
            = respond (errorResponse 405 (.text "405 Method Not Allowed"))))
    ∧ (req.Path = "/ping" →
        (req.Method = "GET" →
          (ServeHTTP s env req).trace
            = respond { Status := 200, ContentType := none, Body := .empty })
        ∧ (req.Method = "POST" →
          (ServeHTTP s env req).trace
            = respond (errorResponse 405 (.text "405 Method Not Allowed"))))
    ∧ (req.Path = "/" →
        (req.Method = "GET" →
          (ServeHTTP s env req).trace
            = respond { Status := 200, ContentType := some "text/html; charset=utf-8",
                        Body := .html })
        ∧ (req.Method = "POST" →
          (ServeHTTP s env req).trace
            = respond (errorResponse 405 (.text "405 Method Not Allowed"))))
    ∧ (ServeHTTP s env req).calls.length = 1)
    ∧ (ServeHTTP s env req).calls.length ≤ 1 := by
  refine ⟨?_, closure_follows_table s env req⟩
  simp only [Run, hmux]

/-- C8 (amended) at `GET /ping` with ceiling 2 and two other requests in
flight: the mux gives the request to the closure, which answers 200 without a
body. -/
theorem router_follows_table_witness :
    Run busyServer exampleEnv
        { Method := "GET", Path := "/ping", Query := [], Body := .ok .invalid,
          RemoteHost := .ok "192.0.2.7" }
      = .served (ServeHTTP busyServer exampleEnv
        { Method := "GET", Path := "/ping", Query := [], Body := .ok .invalid,
          RemoteHost := .ok "192.0.2.7" })
    ∧ (ServeHTTP busyServer exampleEnv
        { Method := "GET", Path := "/ping", Query := [], Body := .ok .invalid,
          RemoteHost := .ok "192.0.2.7" }).trace.writes
      = [{ Status := 200, ContentType := none, Body := .empty }] := by
  have h := router_follows_table busyServer exampleEnv
    { Method := "GET", Path := "/ping", Query := [], Body := .ok .invalid,
      RemoteHost := .ok "192.0.2.7" } (by decide)
  have h2 := (h.2.1 (by decide)).2.2.2.2.2.1 rfl
  refine ⟨h.1, ?_⟩
  rw [h2.1 rfl]
  rfl

theorem ranked_succ (k : Nat) (l : List Conn) (h : Ranked (k + 1) l) : Ranked k l := by
  induction l generalizing k with
  | nil => trivial
  | cons c cs ih =>
    obtain ⟨h1, h2⟩ := h
    exact ⟨by push_cast at h1; omega, ih (k + 1) h2⟩

theorem ranked_eraseIdx (k : Nat) (l : List Conn) (j : Nat) (h : Ranked k l) :
    Ranked k (l.eraseIdx j) := by
  induction l generalizing k j with
  | nil => trivial
  | cons c cs ih =>
    obtain ⟨h1, h2⟩ := h
    cases j with
    | zero => exact ranked_succ k cs h2
    | succ i => exact ⟨h1, ih (k + 1) i h2⟩

theorem ranked_append (k : Nat) (l : List Conn) (c : Conn) (h : Ranked k l)
    (hc : (k : Int) + l.length + 1 ≤ c.cl.Conns) : Ranked k (l ++ [c]) := by
  induction l generalizing k with
  | nil => exact ⟨by simpa using hc, trivial⟩
  | cons d ds ih =>
    obtain ⟨h1, h2⟩ := h
    refine ⟨h1, ih (k + 1) h2 ?_⟩
    simp only [List.length_cons] at hc
    push_cast at hc ⊢
    omega

theorem ranked_filter_bound (K : Int) (P : Conn → Bool)
    (hP : ∀ c, P c = true → c.cl.Conns < K) (k : Nat) (l : List Conn) (h : Ranked k l) :
    (l.filter P).length = 0 ∨ (k : Int) + (l.filter P).length < K := by
  induction l generalizing k with
  | nil => exact Or.inl rfl
  | cons c cs ih =>
    obtain ⟨h1, h2⟩ := h
    have := ih (k + 1) h2
    by_cases hc : P c = true
    · have hK := hP c hc
      right
      simp only [List.filter_cons, hc, if_true, List.length_cons]
      push_cast at this ⊢
      rcases this with h0 | hlt
      · rw [h0]; push_cast; omega
      · omega
    · simp only [List.filter_cons, hc]
      rcases this with h0 | hlt
      · exact Or.inl h0
      · right; push_cast at hlt; simp only [Bool.false_eq_true, if_false]; omega

theorem inv_init (cfg : Config) : Inv cfg 0 (Sys.init cfg) :=
  { cfg_eq := rfl, count_eq := rfl, id_eq := rfl,
    issued_le_last := (by intro x hx; cases hx),
    issued_sorted := List.Pairwise.nil,
    ranked := trivial,
    inflight_le := Nat.le_refl 0,
    issued_le := Nat.le_refl 0 }

/-- One event keeps the invariant, as long as the counters stay in `int64`. -/
theorem inv_step (cfg : Config) (n : Nat) (st st1 : Sys) (e : Event)
    (hinv : Inv cfg n st) (hn : (n : Int) + 1 < 2 ^ 63) (hstep : st.step e = some st1) :
    Inv cfg (n + 1) st1 := by
  have hi : (st.inflight.length : Int) ≤ n := by exact_mod_cast hinv.inflight_le
  have hs : (st.issued.length : Int) ≤ n := by exact_mod_cast hinv.issued_le
  cases e with
  | arrive req =>
    simp only [Sys.step, Option.some.injEq] at hstep
    subst hstep
    have hid : atomicAddInt64 st.srv.lastConnID 1 = st.srv.lastConnID + 1 := by
      unfold atomicAddInt64
      rw [hinv.id_eq]
      exact wrapInt64_of_range _ (by omega) (by omega)
    refine
      { cfg_eq := hinv.cfg_eq, count_eq := hinv.count_eq, id_eq := ?_, issued_le_last := ?_,
        issued_sorted := ?_, ranked := hinv.ranked,
        inflight_le := Nat.le_succ_of_le hinv.inflight_le, issued_le := ?_ }
    · show atomicAddInt64 st.srv.lastConnID 1 = ((st.issued.length + 1 : Nat) : Int)
      rw [hid, hinv.id_eq]
      push_cast
      omega
    · intro x hx
      simp only [hid, List.mem_cons] at hx ⊢
      rcases hx with h | h
      · omega
      · have := hinv.issued_le_last x h
        omega
    · simp only [hid, List.pairwise_cons]
      refine ⟨?_, hinv.issued_sorted⟩
      intro x hx
      have := hinv.issued_le_last x hx
      omega
    · simp only [List.length_cons]
      exact Nat.succ_le_succ hinv.issued_le
  | count i =>
    simp only [Sys.step] at hstep
    cases hget : st.starting[i]? with
    | none => simp [hget] at hstep
    | some pr =>
      simp only [hget, Option.some.injEq] at hstep
      subst hstep
      have hc : atomicAddInt64 st.srv.connsCount 1 = st.inflight.length + 1 := by
        unfold atomicAddInt64
        rw [hinv.count_eq]
        exact wrapInt64_of_range _ (by omega) (by omega)
      refine
        { cfg_eq := hinv.cfg_eq, count_eq := ?_, id_eq := hinv.id_eq,
          issued_le_last := hinv.issued_le_last, issued_sorted := hinv.issued_sorted,
          ranked := ?_, inflight_le := ?_, issued_le := Nat.le_succ_of_le hinv.issued_le }
      · show atomicAddInt64 st.srv.connsCount 1
            = (((st.inflight ++ [_]).length : Nat) : Int)
        rw [hc, List.length_append, List.length_singleton]
        push_cast
        omega
      · apply ranked_append 0 _ _ hinv.ranked
        simp only [hc]
        push_cast
        omega
      · simp only [List.length_append, List.length_singleton]
        exact Nat.succ_le_succ hinv.inflight_le
  | close j =>
    simp only [Sys.step] at hstep
    cases hget : st.inflight[j]? with
    | none => simp [hget] at hstep
    | some c =>
      simp only [hget, Option.some.injEq] at hstep
      subst hstep
      have hj : j < st.inflight.length := by
        by_contra hcon
        rw [List.getElem?_eq_none (by omega)] at hget
        cases hget
      have hlen : (st.inflight.eraseIdx j).length = st.inflight.length - 1 := by
        rw [List.length_eraseIdx, if_pos hj]
      have hc : atomicAddInt64 st.srv.connsCount (-1) = st.inflight.length - 1 := by
        unfold atomicAddInt64
        rw [hinv.count_eq]
        exact wrapInt64_of_range _ (by omega) (by omega)
      refine
        { cfg_eq := hinv.cfg_eq, count_eq := ?_, id_eq := hinv.id_eq,
          issued_le_last := hinv.issued_le_last, issued_sorted := hinv.issued_sorted,
          ranked := ranked_eraseIdx 0 _ j hinv.ranked, inflight_le := ?_,
          issued_le := Nat.le_succ_of_le hinv.issued_le }
      · simp only [closeConnTrack, hc, hlen]
        omega
      · rw [hlen]
        omega

/-- A run keeps the invariant. -/
theorem inv_run (cfg : Config) (evs : List Event) (n : Nat) (st st1 : Sys)
    (hinv : Inv cfg n st) (hn : (n : Int) + evs.length < 2 ^ 63)
    (hrun : st.run evs = some st1) : Inv cfg (n + evs.length) st1 := by
  induction evs generalizing n st with
  | nil =>
    simp only [Sys.run, Option.some.injEq] at hrun
    subst hrun
    exact hinv
  | cons e es ih =>
    simp only [Sys.run] at hrun
    simp only [List.length_cons] at hn ⊢
    push_cast at hn
    cases hstep : st.step e with
    | none => simp [hstep] at hrun
    | some st2 =>
      simp only [hstep] at hrun
      have h2 := inv_step cfg n st st2 e hinv (by omega) hstep
      have := ih (n + 1) st2 h2 (by push_cast; omega) hrun
      rw [Nat.add_assoc, Nat.add_comm 1] at this
      exact this

/-- With a positive ceiling, a request that passed admission holds a count
below the ceiling. -/
theorem passedAdmission_lt (s : Server) (c : Conn) (hmax : 0 < s.Cfg.Global.MaxConns)
    (h : passedAdmission s c = true) : c.cl.Conns < s.Cfg.Global.MaxConns := by
  unfold passedAdmission at h
  cases hm : matchedBinding c.req.Path with
  | none => simp [hm] at h
  | some a =>
    simp only [hm, Bool.and_eq_true, decide_eq_true_eq] at h
    obtain ⟨hlim, hne⟩ := h
    rw [route_first_match] at hne
    unfold matchedBinding at hm
    rw [hm] at hne
    by_contra hge
    apply hne
    simp only [bindingDecision]
    rw [if_pos ⟨hlim, hmax, by omega⟩]

/-- The two atomic additions of one request, with no other request in
between, are `newConnTrack`. -/
theorem arrive_count_is_newConnTrack (st : Sys) (req : Request) (hstart : st.starting = []) :
    (st.step (.arrive req)).bind (fun st1 => st1.step (.count 0))
      = some { srv := (newConnTrack st.srv).2, starting := [],
               inflight := st.inflight ++ [{ cl := (newConnTrack st.srv).1, req := req }],
               issued := (newConnTrack st.srv).1.ConnID :: st.issued } := by
  simp [Sys.step, hstart, newConnTrack]

/-- C10. Over every interleaving of the atomic additions of `newConnTrack` and
`closeConnTrack`, started from a fresh server with a positive ceiling
`MaxConns = k` (and fewer events than the `int64` range holds): `connsCount`
equals the number of requests opened and not yet closed; each `ConnID` is
strictly greater than every earlier one; the in-flight requests that passed
admission number at most `k - 1`, and none when `k = 1`; and a request that
adds itself to `connsCount` gets the number of requests then in flight plus
one, so that it passes admission only if at most `k - 2` others are in
flight. -/
theorem conn_tracking_invariant (cfg : Config) (evs : List Event) (st : Sys)
    (hk : 0 < cfg.Global.MaxConns) (hlen : (evs.length : Int) + 1 < 2 ^ 63)
    (hrun : (Sys.init cfg).run evs = some st) :
    st.srv.connsCount = st.inflight.length
    ∧ st.issued.Pairwise (fun later earlier => later > earlier)
    ∧ ((st.inflight.filter (passedAdmission st.srv)).length : Int) ≤ cfg.Global.MaxConns - 1
    ∧ (cfg.Global.MaxConns = 1 → ∀ c ∈ st.inflight, passedAdmission st.srv c = false)
    ∧ (∀ (i : Nat) (st1 : Sys), st.step (.count i) = some st1 →
        ∃ c, st1.inflight = st.inflight ++ [c]
          ∧ c.cl.Conns = (st.inflight.length : Int) + 1
          ∧ (passedAdmission st1.srv c = true →
              (st.inflight.length : Int) ≤ cfg.Global.MaxConns - 2)) := by
  have hinv : Inv cfg (0 + evs.length) st :=
    inv_run cfg evs 0 (Sys.init cfg) st (inv_init cfg) (by push_cast; omega) hrun
  rw [Nat.zero_add] at hinv
  have hi : (st.inflight.length : Int) ≤ evs.length := by exact_mod_cast hinv.inflight_le
  have hmax : 0 < st.srv.Cfg.Global.MaxConns := by rw [hinv.cfg_eq]; exact hk
  have hbound := ranked_filter_bound st.srv.Cfg.Global.MaxConns (passedAdmission st.srv)
    (fun c hc => passedAdmission_lt st.srv c hmax hc) 0 st.inflight hinv.ranked
  rw [hinv.cfg_eq] at hbound
  have hcount : ((st.inflight.filter (passedAdmission st.srv)).length : Int)
      ≤ cfg.Global.MaxConns - 1 := by
    rcases hbound with h0 | hlt
    · rw [h0]; push_cast; omega
    · push_cast at hlt; omega
  refine ⟨hinv.count_eq, hinv.issued_sorted, hcount, ?_, ?_⟩
  · intro h1 c hc
    by_contra hp
    have hp1 : passedAdmission st.srv c = true := by simpa using hp
    have hmem : c ∈ st.inflight.filter (passedAdmission st.srv) :=
      List.mem_filter.2 ⟨hc, hp1⟩
    have hpos : 0 < (st.inflight.filter (passedAdmission st.srv)).length :=
      List.length_pos_of_mem hmem
    rw [h1] at hcount
    omega
  · intro i st1 hstep
    simp only [Sys.step] at hstep
    cases hget : st.starting[i]? with
    | none => simp [hget] at hstep
    | some pr =>
      simp only [hget, Option.some.injEq] at hstep
      subst hstep
      have hc : atomicAddInt64 st.srv.connsCount 1 = st.inflight.length + 1 := by
        unfold atomicAddInt64
        rw [hinv.count_eq]
        exact wrapInt64_of_range _ (by omega) (by omega)
      refine ⟨_, rfl, hc, ?_⟩
      intro hp
      have hlt := passedAdmission_lt _ _ hmax hp
      have hlt2 : atomicAddInt64 st.srv.connsCount 1 < cfg.Global.MaxConns := by
        rw [← hinv.cfg_eq]; exact hlt
      rw [hc] at hlt2
      omega

/-- C10 at ceiling 2 after two POSTs to `/v1/topics/clicks` were opened: the
counter is 2 and one request passed admission. -/
theorem conn_tracking_invariant_witness :
    exampleState.srv.connsCount = exampleState.inflight.length
    ∧ exampleState.issued.Pairwise (fun later earlier => later > earlier)
    ∧ ((exampleState.inflight.filter (passedAdmission exampleState.srv)).length : Int)
        ≤ exampleConfig.Global.MaxConns - 1
    ∧ (exampleState.inflight.filter (passedAdmission exampleState.srv)).length = 1 := by
  have h := conn_tracking_invariant exampleConfig exampleEvents exampleState
    (by decide) (by decide) rfl
  exact ⟨h.1, h.2.1, h.2.2.1, by decide⟩

end KafkaHttpApi
